import Mathlib

/-!
Verification of the Universal-ZKV proof-verification engine.

This file gives a shallow embedding, in Lean 4, of the parts of the
repository that the frozen claims C1..C10 are about:

* the wire envelope codec (`src/packages/stylus/src/types.rs`);
* the dispatch security validator (`src/packages/stylus/src/security.rs`);
* the Merkle commitment (`src/packages/stylus/src/stark/merkle.rs`);
* the FRI folding / remainder checks (`src/packages/stylus/stark/src/fri.rs`);
* the BN254 scalar-field arithmetic (`src/packages/stylus/src/utils.rs`);
* the Groth16 verifier control flow (`src/packages/stylus/src/groth16.rs`);
* the PLONK gate-constraint check (`src/packages/stylus/src/plonk/plonk.rs`).

Machine integers are modelled as `Nat` with explicit `%` where overflow or
reduction matters; byte strings as `List Nat`; fallible code as `Option` or
`Except`.  External primitives (the arkworks curve backend, the hash
functions) are parameters of the embedding; everything else is translated
directly from the Rust source.
-/

namespace UZKV

/-! ## Byte-level helpers shared by the codecs (types.rs) -/

/-- Little-endian byte encoding of `n` on `k` bytes, as `to_le_bytes` does. -/
def byteLE : Nat → Nat → List Nat
  | 0, _ => []
  | k + 1, n => n % 256 :: byteLE k (n / 256)

/-- Little-endian value of a byte list, as `from_le_bytes` does. -/
def leVal (l : List Nat) : Nat :=
  l.foldr (fun b acc => b + 256 * acc) 0

/-- Contiguous slice of `n` bytes starting at offset `s`, as Rust slicing. -/
def slice (l : List Nat) (s n : Nat) : List Nat :=
  (l.drop s).take n

theorem byteLE_length (k n : Nat) : (byteLE k n).length = k := by
  induction k generalizing n with
  | zero => rfl
  | succ k ih => simp [byteLE, ih]

theorem leVal_byteLE (k n : Nat) (h : n < 256 ^ k) : leVal (byteLE k n) = n := by
  induction k generalizing n with
  | zero =>
    simp [byteLE, leVal]
    omega
  | succ k ih =>
    have hlt : n / 256 < 256 ^ k := by
      rw [Nat.div_lt_iff_lt_mul (by norm_num)]
      calc n < 256 ^ (k + 1) := h
        _ = 256 ^ k * 256 := by ring
    simp only [byteLE, leVal, List.foldr_cons]
    have := ih (n / 256) hlt
    simp only [leVal] at this
    rw [this]
    omega

/-! ## Proof-type tags (types.rs, `ProofType`) -/

/-- The proof-system identifier, `ProofType` in types.rs. -/
inductive ProofType
  | Groth16
  | PLONK
  | STARK
deriving DecidableEq, Repr

/-- ProofType::to_u8. -/
def ProofType.toU8 : ProofType → Nat
  | .Groth16 => 0
  | .PLONK => 1
  | .STARK => 2

/-- ProofType::from_u8. -/
def ProofType.fromU8 : Nat → Option ProofType
  | 0 => some .Groth16
  | 1 => some .PLONK
  | 2 => some .STARK
  | _ => none

theorem ProofType.fromU8_toU8 (t : ProofType) : ProofType.fromU8 t.toU8 = some t := by
  cases t <;> rfl

/-! ## PublicStatement codec (types.rs) -/

/-- The shared public statement, `PublicStatement` in types.rs.  The three
32-byte arrays are byte lists (length 32 is an invariant of the Rust type),
`value` is a `u128`, `extra` arbitrary bytes. -/
structure PublicStatement where
  merkle_root : List Nat
  public_key : List Nat
  nullifier : List Nat
  value : Nat
  extra : List Nat
deriving DecidableEq, Repr

/-- PublicStatement::encode. -/
def PublicStatement.encode (s : PublicStatement) : List Nat :=
  s.merkle_root ++ s.public_key ++ s.nullifier ++ byteLE 16 s.value ++
    byteLE 4 s.extra.length ++ s.extra

/-- PublicStatement::decode. -/
def PublicStatement.decode (bytes : List Nat) : Option PublicStatement :=
  if bytes.length < 116 then none
  else
    let merkle_root := slice bytes 0 32
    let public_key := slice bytes 32 32
    let nullifier := slice bytes 64 32
    let value := leVal (slice bytes 96 16)
    let extra_len := leVal (slice bytes 112 4)
    if bytes.length < 116 + extra_len then none
    else some ⟨merkle_root, public_key, nullifier, value, slice bytes 116 extra_len⟩

/-! ## UniversalProof codec (types.rs) -/

/-- The wire envelope, `UniversalProof` in types.rs. -/
structure UniversalProof where
  version : Nat
  proof_type : ProofType
  program_id : Nat
  vk_hash : List Nat
  proof_bytes : List Nat
  public_inputs_bytes : List Nat
deriving DecidableEq, Repr

/-- UniversalProof::encode. -/
def UniversalProof.encode (p : UniversalProof) : List Nat :=
  p.version :: p.proof_type.toU8 ::
    (byteLE 4 p.program_id ++ p.vk_hash ++ byteLE 4 p.proof_bytes.length ++
      p.proof_bytes ++ byteLE 4 p.public_inputs_bytes.length ++ p.public_inputs_bytes)

/-- Declared proof length read at offset 38, as in UniversalProof::decode. -/
def declaredProofLen (bytes : List Nat) : Nat :=
  leVal (slice bytes 38 4)

/-- Declared public-input length read just after the proof bytes. -/
def declaredInputsLen (bytes : List Nat) : Nat :=
  leVal (slice bytes (42 + declaredProofLen bytes) 4)

/-- UniversalProof::decode. -/
def UniversalProof.decode (bytes : List Nat) : Option UniversalProof :=
  if bytes.length < 46 then none
  else
    let version := bytes.getD 0 0
    if version ≠ 1 then none
    else
      match ProofType.fromU8 (bytes.getD 1 0) with
      | none => none
      | some proof_type =>
        let program_id := leVal (slice bytes 2 4)
        let vk_hash := slice bytes 6 32
        let proof_len := declaredProofLen bytes
        if bytes.length < 42 + proof_len then none
        else
          let proof_bytes := slice bytes 42 proof_len
          if bytes.length < 42 + proof_len + 4 then none
          else
            let public_inputs_len := declaredInputsLen bytes
            if bytes.length < 46 + proof_len + public_inputs_len then none
            else
              some ⟨version, proof_type, program_id, vk_hash, proof_bytes,
                slice bytes (46 + proof_len) public_inputs_len⟩

theorem slice_append_of_length (a b : List Nat) (n : Nat) (h : a.length = n) :
    slice (a ++ b) 0 n = a := by
  subst h
  simp [slice, List.take_left]

theorem drop_append_of_length (a b : List Nat) (n : Nat) (h : a.length = n) :
    (a ++ b).drop n = b := by
  subst h
  exact List.drop_left a b

theorem take_append_of_length (a b : List Nat) (n : Nat) (h : a.length = n) :
    (a ++ b).take n = a := by
  subst h
  exact List.take_left a b

theorem drop_drop_of (l : List Nat) (a b n : Nat) (h : n = a + b) :
    l.drop n = (l.drop a).drop b := by
  subst h
  rw [List.drop_drop, Nat.add_comm]

theorem encodePS_length (s : PublicStatement)
    (h1 : s.merkle_root.length = 32) (h2 : s.public_key.length = 32)
    (h3 : s.nullifier.length = 32) :
    s.encode.length = 116 + s.extra.length := by
  simp [PublicStatement.encode, byteLE_length, h1, h2, h3]
  omega

theorem decode_encode_publicStatement (s : PublicStatement)
    (h1 : s.merkle_root.length = 32) (h2 : s.public_key.length = 32)
    (h3 : s.nullifier.length = 32) (h4 : s.value < 256 ^ 16)
    (h5 : s.extra.length < 256 ^ 4) :
    PublicStatement.decode s.encode = some s := by
  have hlen : s.encode.length = 116 + s.extra.length :=
    encodePS_length s h1 h2 h3
  have d32 : s.encode.drop 32 =
      s.public_key ++ s.nullifier ++ byteLE 16 s.value ++
        byteLE 4 s.extra.length ++ s.extra := by
    simp only [PublicStatement.encode, List.append_assoc]
    exact drop_append_of_length _ _ 32 h1
  have d64 : s.encode.drop 64 =
      s.nullifier ++ byteLE 16 s.value ++ byteLE 4 s.extra.length ++ s.extra := by
    have : s.encode.drop 64 = (s.encode.drop 32).drop 32 := by
      rw [List.drop_drop]
    rw [this, d32]
    simp only [List.append_assoc]
    exact drop_append_of_length _ _ 32 h2
  have d96 : s.encode.drop 96 =
      byteLE 16 s.value ++ byteLE 4 s.extra.length ++ s.extra := by
    have : s.encode.drop 96 = (s.encode.drop 64).drop 32 := by
      rw [List.drop_drop]
    rw [this, d64]
    simp only [List.append_assoc]
    exact drop_append_of_length _ _ 32 h3
  have d112 : s.encode.drop 112 = byteLE 4 s.extra.length ++ s.extra := by
    have : s.encode.drop 112 = (s.encode.drop 96).drop 16 := by
      rw [List.drop_drop]
    rw [this, d96]
    simp only [List.append_assoc]
    exact drop_append_of_length _ _ 16 (byteLE_length 16 s.value)
  have d116 : s.encode.drop 116 = s.extra := by
    have : s.encode.drop 116 = (s.encode.drop 112).drop 4 := by
      rw [List.drop_drop]
    rw [this, d112]
    exact drop_append_of_length _ _ 4 (byteLE_length 4 s.extra.length)
  have s0 : slice s.encode 0 32 = s.merkle_root := by
    simp only [PublicStatement.encode, List.append_assoc]
    exact slice_append_of_length _ _ 32 h1
  have s32 : slice s.encode 32 32 = s.public_key := by
    simp only [slice, d32, List.append_assoc]
    exact take_append_of_length _ _ 32 h2
  have s64 : slice s.encode 64 32 = s.nullifier := by
    simp only [slice, d64, List.append_assoc]
    exact take_append_of_length _ _ 32 h3
  have s96 : slice s.encode 96 16 = byteLE 16 s.value := by
    simp only [slice, d96, List.append_assoc]
    exact take_append_of_length _ _ 16 (byteLE_length 16 s.value)
  have s112 : slice s.encode 112 4 = byteLE 4 s.extra.length := by
    simp only [slice, d112, List.append_assoc]
    exact take_append_of_length _ _ 4 (byteLE_length 4 s.extra.length)
  have s116 : slice s.encode 116 s.extra.length = s.extra := by
    simp only [slice, d116]
    exact List.take_length s.extra
  simp only [PublicStatement.decode, hlen, s0, s32, s64, s96, s112, s116,
    leVal_byteLE 16 s.value h4, leVal_byteLE 4 s.extra.length h5]
  rw [if_neg (by omega), if_neg (by omega)]

theorem encodeUP_length (p : UniversalProof) (h : p.vk_hash.length = 32) :
    p.encode.length = 46 + p.proof_bytes.length + p.public_inputs_bytes.length := by
  simp [UniversalProof.encode, byteLE_length, h]
  omega

theorem decode_encode_universalProof (p : UniversalProof)
    (hv : p.version = 1) (hk : p.vk_hash.length = 32)
    (hg : p.program_id < 256 ^ 4) (hp : p.proof_bytes.length < 256 ^ 4)
    (hq : p.public_inputs_bytes.length < 256 ^ 4) :
    UniversalProof.decode p.encode = some p := by
  have hlen : p.encode.length =
      46 + p.proof_bytes.length + p.public_inputs_bytes.length :=
    encodeUP_length p hk
  have d2 : p.encode.drop 2 =
      byteLE 4 p.program_id ++ p.vk_hash ++ byteLE 4 p.proof_bytes.length ++
        p.proof_bytes ++ byteLE 4 p.public_inputs_bytes.length ++
        p.public_inputs_bytes := by
    rfl
  have d6 : p.encode.drop 6 =
      p.vk_hash ++ byteLE 4 p.proof_bytes.length ++ p.proof_bytes ++
        byteLE 4 p.public_inputs_bytes.length ++ p.public_inputs_bytes := by
    have : p.encode.drop 6 = (p.encode.drop 2).drop 4 := by rw [List.drop_drop]
    rw [this, d2]
    simp only [List.append_assoc]
    exact drop_append_of_length _ _ 4 (byteLE_length 4 p.program_id)
  have d38 : p.encode.drop 38 =
      byteLE 4 p.proof_bytes.length ++ p.proof_bytes ++
        byteLE 4 p.public_inputs_bytes.length ++ p.public_inputs_bytes := by
    have : p.encode.drop 38 = (p.encode.drop 6).drop 32 := by rw [List.drop_drop]
    rw [this, d6]
    simp only [List.append_assoc]
    exact drop_append_of_length _ _ 32 hk
  have d42 : p.encode.drop 42 =
      p.proof_bytes ++ byteLE 4 p.public_inputs_bytes.length ++
        p.public_inputs_bytes := by
    have : p.encode.drop 42 = (p.encode.drop 38).drop 4 := by rw [List.drop_drop]
    rw [this, d38]
    simp only [List.append_assoc]
    exact drop_append_of_length _ _ 4 (byteLE_length 4 p.proof_bytes.length)
  have d42p : p.encode.drop (42 + p.proof_bytes.length) =
      byteLE 4 p.public_inputs_bytes.length ++ p.public_inputs_bytes := by
    rw [drop_drop_of p.encode 42 p.proof_bytes.length _ rfl, d42]
    simp only [List.append_assoc]
    exact drop_append_of_length _ _ _ rfl
  have d46p : p.encode.drop (46 + p.proof_bytes.length) =
      p.public_inputs_bytes := by
    rw [drop_drop_of p.encode (42 + p.proof_bytes.length) 4 _ (by omega), d42p]
    exact drop_append_of_length _ _ 4 (byteLE_length 4 _)
  have s2 : slice p.encode 2 4 = byteLE 4 p.program_id := by
    simp only [slice, d2, List.append_assoc]
    exact take_append_of_length _ _ 4 (byteLE_length 4 p.program_id)
  have s6 : slice p.encode 6 32 = p.vk_hash := by
    simp only [slice, d6, List.append_assoc]
    exact take_append_of_length _ _ 32 hk
  have s38 : declaredProofLen p.encode = p.proof_bytes.length := by
    have : slice p.encode 38 4 = byteLE 4 p.proof_bytes.length := by
      simp only [slice, d38, List.append_assoc]
      exact take_append_of_length _ _ 4 (byteLE_length 4 _)
    simp only [declaredProofLen, this, leVal_byteLE 4 _ hp]
  have s42 : slice p.encode 42 p.proof_bytes.length = p.proof_bytes := by
    simp only [slice, d42, List.append_assoc]
    exact take_append_of_length _ _ _ rfl
  have s42p : declaredInputsLen p.encode = p.public_inputs_bytes.length := by
    have : slice p.encode (42 + declaredProofLen p.encode) 4 =
        byteLE 4 p.public_inputs_bytes.length := by
      simp only [s38, slice, d42p, List.append_assoc]
      exact take_append_of_length _ _ 4 (byteLE_length 4 _)
    simp only [declaredInputsLen, this, leVal_byteLE 4 _ hq]
  have s46p : slice p.encode (46 + p.proof_bytes.length)
      p.public_inputs_bytes.length = p.public_inputs_bytes := by
    simp only [slice, d46p]
    exact List.take_length _
  have hget0 : p.encode.getD 0 0 = 1 := by
    simp [UniversalProof.encode, hv]
  have hget1 : p.encode.getD 1 0 = p.proof_type.toU8 := by
    simp [UniversalProof.encode]
  simp only [UniversalProof.decode, hlen, hget0, hget1, ProofType.fromU8_toU8,
    s2, s6, s38, s42, s42p, s46p, leVal_byteLE 4 _ hg]
  rw [if_neg (by omega), if_neg (by omega), if_neg (by omega), if_neg (by omega),
    if_neg (by omega)]
  rw [← hv]

/-- C6, amended.  `UniversalProof::decode` fails exactly when the buffer is
shorter than 46 bytes, the version byte is not 1, the proof-type byte is not
in 0..2, or the buffer is shorter than `46 + proof_len + public_inputs_len`;
a buffer longer than the declared total still decodes (trailing bytes are
ignored), which is the one deviation from the claim as stated. -/
theorem decodeUP_none_iff (b : List Nat) :
    UniversalProof.decode b = none ↔
      b.length < 46 ∨ b.getD 0 0 ≠ 1 ∨ ProofType.fromU8 (b.getD 1 0) = none ∨
        b.length < 46 + declaredProofLen b + declaredInputsLen b := by
  simp only [UniversalProof.decode]
  by_cases h46 : b.length < 46
  · simp only [if_pos h46, eq_self_iff_true]
    simp [h46]
  · simp only [if_neg h46]
    by_cases hv : b.getD 0 0 = 1
    · cases hpt : ProofType.fromU8 (b.getD 1 0) with
      | none =>
        rw [if_neg (by simpa using hv)]
        simp only [hpt]
        simp [h46, hv, hpt]
      | some pt =>
        rw [if_neg (by simpa using hv)]
        simp only [hpt]
        by_cases h42 : b.length < 42 + declaredProofLen b
        · rw [if_pos h42]
          simp only [eq_self_iff_true, true_iff]
          right; right; right
          omega
        · rw [if_neg h42]
          by_cases h44 : b.length < 42 + declaredProofLen b + 4
          · rw [if_pos h44]
            simp only [eq_self_iff_true, true_iff]
            right; right; right
            omega
          · rw [if_neg h44]
            by_cases hfin :
                b.length < 46 + declaredProofLen b + declaredInputsLen b
            · rw [if_pos hfin]
              simp [hfin]
            · rw [if_neg hfin]
              simp only [List.getD_eq_getElem?_getD] at hv hpt
              simp [h46, hv, hpt, hfin]
    · rw [if_pos (by simpa using hv)]
      simp only [List.getD_eq_getElem?_getD] at hv
      simp [h46, hv]

/-- A 47-byte buffer: a well-formed 46-byte envelope with one trailing byte. -/
def trailingByteBuffer : List Nat :=
  1 :: 0 :: List.replicate 45 0

/-- C6, counterexample.  The claim states that `decode` fails whenever the
buffer length does not equal `46 + proof_len + public_inputs_len`.  The
47-byte buffer above declares both lengths as 0, so the stated total is 46,
yet `decode` accepts it, ignoring the trailing byte. -/
theorem c6_trailing_byte_accepted :
    UniversalProof.decode trailingByteBuffer ≠ none ∧
      trailingByteBuffer.length ≠
        46 + declaredProofLen trailingByteBuffer +
          declaredInputsLen trailingByteBuffer := by
  decide

/-- C8.  Encoding then decoding is the identity on valid values: any
`UniversalProof` with version 1 and u32-sized lengths, and any
`PublicStatement` with 32-byte hash fields, a u128 value and a u32-sized
extra field, survive an encode/decode round trip unchanged. -/
theorem c8_encode_decode_roundtrip (x : UniversalProof) (y : PublicStatement) :
    (x.version = 1 → x.vk_hash.length = 32 → x.program_id < 256 ^ 4 →
      x.proof_bytes.length < 256 ^ 4 → x.public_inputs_bytes.length < 256 ^ 4 →
      UniversalProof.decode x.encode = some x) ∧
    (y.merkle_root.length = 32 → y.public_key.length = 32 →
      y.nullifier.length = 32 → y.value < 256 ^ 16 → y.extra.length < 256 ^ 4 →
      PublicStatement.decode y.encode = some y) := by
  refine ⟨fun h1 h2 h3 h4 h5 => ?_, fun h1 h2 h3 h4 h5 => ?_⟩
  · exact decode_encode_universalProof x h1 h2 h3 h4 h5
  · exact decode_encode_publicStatement y h1 h2 h3 h4 h5

/-- A sample valid envelope, mirroring the round-trip unit test in types.rs. -/
def sampleEnvelope : UniversalProof :=
  ⟨1, .PLONK, 42, List.replicate 32 171, [1, 2, 3, 4, 5], [6, 7, 8, 9]⟩

/-- A sample valid public statement, mirroring the unit test in types.rs. -/
def sampleStatement : PublicStatement :=
  ⟨List.replicate 32 1, List.replicate 32 2, List.replicate 32 3, 12345,
    [222, 173, 190, 239]⟩

/-- Witness for C8 at a concrete envelope and statement. -/
theorem c8_encode_decode_roundtrip_witness :
    UniversalProof.decode sampleEnvelope.encode = some sampleEnvelope ∧
      PublicStatement.decode sampleStatement.encode = some sampleStatement :=
  ⟨(c8_encode_decode_roundtrip sampleEnvelope sampleStatement).1 rfl (by decide)
      (by decide) (by decide) (by decide),
    (c8_encode_decode_roundtrip sampleEnvelope sampleStatement).2 (by decide)
      (by decide) (by decide) (by decide) (by decide)⟩

/-! ## Security dispatch validator (security.rs) -/

/-- Modelled from the spec: the `CurveId` enum is referenced by security.rs
(`crate::types::CurveId`) but its definition is not under src/; §3 and the
unit tests name the BN254 and BLS12-381 curves. -/
inductive CurveId
  | BN254
  | BLS12_381
deriving DecidableEq, Repr

/-- Modelled from the spec: `UniversalProofDescriptor` is referenced by
security.rs (`crate::types::UniversalProofDescriptor`) but its definition is
not under src/; §3 lists its fields: (proof_system_id, curve_id,
hash_function_id, recursion_depth, public_input_count, proof_length,
vk_commitment[32], circuit_id[32]). -/
structure UniversalProofDescriptor where
  proof_system_id : Nat
  curve_id : CurveId
  hash_function_id : Nat
  recursion_depth : Nat
  public_input_count : Nat
  proof_length : Nat
  vk_commitment : List Nat
  circuit_id : List Nat
deriving DecidableEq, Repr

/-- Registered verification-key metadata, `RegisteredVK` in security.rs. -/
structure RegisteredVK where
  proof_type : ProofType
  vk_hash : List Nat
  circuit_id : List Nat
  curve_id : CurveId
  max_public_inputs : Nat
  active : Bool
deriving DecidableEq, Repr

/-- Security validation errors, `SecurityError` in security.rs. -/
inductive SecurityError
  | ProofTypeMismatch (expected actual : Nat)
  | VKCommitmentMismatch
  | CurveMismatch (descriptor_curve verifier_curve : CurveId)
  | ExcessiveRecursionDepth (depth max_allowed : Nat)
  | TooManyPublicInputs (count max_allowed : Nat)
  | ProofTooLarge (size max_allowed : Nat)
  | InvalidProofStructure
  | UnknownCircuitId
  | UnsupportedProofSystem
  | InsufficientSecurityLevel (required_bits provided_bits : Nat)
  | PostQuantumRequired
deriving DecidableEq, Repr

/-- DispatchValidator::validate_proof_type_binding in security.rs.  (The
method reads no field of the validator itself, so the `self` receiver is
omitted.) -/
def validateProofTypeBinding (descriptor : UniversalProofDescriptor)
    (registered_vk : RegisteredVK) : Except SecurityError Unit :=
  if registered_vk.active = false then .error .UnsupportedProofSystem
  else
    let expected := registered_vk.proof_type.toU8
    let actual := descriptor.proof_system_id
    if expected ≠ actual then .error (.ProofTypeMismatch expected actual)
    else if descriptor.vk_commitment ≠ registered_vk.vk_hash then
      .error .VKCommitmentMismatch
    else if descriptor.circuit_id ≠ registered_vk.circuit_id then
      .error .UnknownCircuitId
    else .ok ()

/-- C3.  `validate_proof_type_binding` accepts exactly when the key is
active and the descriptor matches it on proof type, vk commitment and
circuit id; the first violated condition, in that order, yields its
specific error.  The definition performs only equality comparisons: no
curve arithmetic or pairing is involved. -/
theorem c3_proof_type_binding (d : UniversalProofDescriptor)
    (vk : RegisteredVK) :
    (validateProofTypeBinding d vk = .ok () ↔
      vk.active = true ∧ d.proof_system_id = vk.proof_type.toU8 ∧
        d.vk_commitment = vk.vk_hash ∧ d.circuit_id = vk.circuit_id) ∧
    (vk.active = false →
      validateProofTypeBinding d vk = .error .UnsupportedProofSystem) ∧
    (vk.active = true → vk.proof_type.toU8 ≠ d.proof_system_id →
      validateProofTypeBinding d vk =
        .error (.ProofTypeMismatch vk.proof_type.toU8 d.proof_system_id)) ∧
    (vk.active = true → vk.proof_type.toU8 = d.proof_system_id →
      d.vk_commitment ≠ vk.vk_hash →
      validateProofTypeBinding d vk = .error .VKCommitmentMismatch) ∧
    (vk.active = true → vk.proof_type.toU8 = d.proof_system_id →
      d.vk_commitment = vk.vk_hash → d.circuit_id ≠ vk.circuit_id →
      validateProofTypeBinding d vk = .error .UnknownCircuitId) := by
  unfold validateProofTypeBinding
  refine ⟨?_, ?_, ?_, ?_, ?_⟩
  · constructor
    · intro h
      by_cases ha : vk.active = false
      · rw [if_pos ha] at h; exact absurd h (by simp)
      · rw [if_neg ha] at h
        by_cases hpt : vk.proof_type.toU8 ≠ d.proof_system_id
        · rw [if_pos hpt] at h; exact absurd h (by simp)
        · rw [if_neg hpt] at h
          by_cases hvk : d.vk_commitment ≠ vk.vk_hash
          · rw [if_pos hvk] at h; exact absurd h (by simp)
          · rw [if_neg hvk] at h
            by_cases hc : d.circuit_id ≠ vk.circuit_id
            · rw [if_pos hc] at h; exact absurd h (by simp)
            · push_neg at hpt hvk hc
              exact ⟨by simpa using ha, hpt.symm, hvk, hc⟩
    · rintro ⟨ha, hpt, hvk, hc⟩
      rw [if_neg (by simp [ha]), if_neg (by simp [hpt]), if_neg (by simp [hvk]),
        if_neg (by simp [hc])]
  · intro ha
    rw [if_pos ha]
  · intro ha hpt
    rw [if_neg (by simp [ha]), if_pos hpt]
  · intro ha hpt hvk
    rw [if_neg (by simp [ha]), if_neg (by simp [hpt]), if_pos hvk]
  · intro ha hpt hvk hc
    rw [if_neg (by simp [ha]), if_neg (by simp [hpt]), if_neg (by simp [hvk]),
      if_pos hc]

/-- A descriptor for a PLONK proof bound to commitment 1…1 / circuit 2…2. -/
def samplePlonkDescriptor : UniversalProofDescriptor :=
  ⟨1, .BN254, 0, 0, 2, 896, List.replicate 32 1, List.replicate 32 2⟩

/-- A registered key for the Groth16 system with the same commitment. -/
def sampleGroth16Key : RegisteredVK :=
  ⟨.Groth16, List.replicate 32 1, List.replicate 32 2, .BN254, 256, true⟩

/-- Witness for C3: a PLONK descriptor presented against a key registered for
Groth16 is rejected with `ProofTypeMismatch` before any cryptography. -/
theorem c3_proof_type_binding_witness :
    validateProofTypeBinding samplePlonkDescriptor sampleGroth16Key =
      .error (.ProofTypeMismatch 0 1) :=
  (c3_proof_type_binding samplePlonkDescriptor sampleGroth16Key).2.2.1 rfl
    (by decide)

/-! ## Merkle commitment (stark/merkle.rs)

The hash is the one external primitive: the embedding is parameterised by
`hp` (Keccak256 of the concatenated pair in the source) and by the all-zero
32-byte leaf `z`.  The no-collision assumption of C7 appears as an
injectivity hypothesis on `hp`. -/

section Merkle

variable {H : Type} (hp : H → H → H) (z : H)

/-- One bottom-up level step of MerkleTree::new: hash adjacent pairs. -/
def hashLevel : List H → List H
  | a :: b :: rest => hp a b :: hashLevel rest
  | _ => []

/-- Fuel-driven helper for `usize::next_power_of_two`. -/
def nextPow2F : Nat → Nat → Nat
  | 0, _ => 1
  | f + 1, n => if n ≤ 1 then 1 else 2 * nextPow2F f ((n + 1) / 2)

/-- usize::next_power_of_two for positive arguments: the least power of two
greater than or equal to `n`. -/
def nextPow2 (n : Nat) : Nat := nextPow2F n n

/-- The padded leaf level built by MerkleTree::new: leaves extended to the
next power of two with the all-zero leaf. -/
def padLeaves (leaves : List H) : List H :=
  leaves ++ List.replicate (nextPow2 leaves.length - leaves.length) z

/-- All levels of the tree, leaves first, as laid out in `nodes`. -/
def buildLevelsF : Nat → List H → List (List H)
  | 0, l => [l]
  | f + 1, l => if l.length ≤ 1 then [l] else l :: buildLevelsF f (hashLevel hp l)

/-- The level list of MerkleTree::new starting from a padded leaf level. -/
def buildLevels (l : List H) : List (List H) := buildLevelsF hp l.length l

/-- The stored `num_leaves`: 0 for the empty tree, else the padded count. -/
def numLeaves (leaves : List H) : Nat :=
  if leaves.isEmpty then 0 else nextPow2 leaves.length

/-- MerkleTree::root: the last node of the flattened level list, or the
all-zero hash for the empty tree. -/
def merkleRoot (leaves : List H) : H :=
  if leaves.isEmpty then z
  else ((buildLevels hp (padLeaves z leaves)).getLastD []).getLastD z

/-- A Merkle inclusion proof, `MerkleProof` in merkle.rs. -/
structure MerkleProofL (H : Type) where
  leaf_index : Nat
  siblings : List H

/-- The sibling collection loop of MerkleTree::proof, walking the level
list bottom-up while the level holds more than one node. -/
def siblingsFrom : List (List H) → Nat → List H
  | [], _ => []
  | l :: rest, i =>
    if l.length ≤ 1 then []
    else
      (let sibling_idx := if i % 2 = 0 then i + 1 else i - 1
       if sibling_idx < l.length then l.getD sibling_idx z else z) ::
        siblingsFrom rest (i / 2)

/-- MerkleTree::proof. -/
def merkleProof (leaves : List H) (leaf_index : Nat) : Option (MerkleProofL H) :=
  if leaf_index ≥ numLeaves leaves ∨ leaves.isEmpty then none
  else some ⟨leaf_index,
    siblingsFrom z (buildLevels hp (padLeaves z leaves)) leaf_index⟩

/-- The path recomputation loop of MerkleProof::verify, ordering each pair
by the current index bit. -/
def verifyChain : Nat → H → List H → H
  | _, cur, [] => cur
  | idx, cur, s :: rest =>
    verifyChain (idx / 2) (if idx % 2 = 0 then hp cur s else hp s cur) rest

/-- MerkleProof::verify: recompute the path and compare with the root. -/
def merkleVerify [DecidableEq H] (pr : MerkleProofL H) (leaf root : H) : Bool :=
  decide (verifyChain hp pr.leaf_index leaf pr.siblings = root)

theorem hashLevel_length (l : List H) :
    (hashLevel hp l).length = l.length / 2 := by
  match l with
  | [] => simp [hashLevel]
  | [a] => simp [hashLevel]
  | a :: b :: rest =>
    have ih := hashLevel_length rest
    simp only [hashLevel, List.length_cons, ih]
    omega

theorem hashLevel_getD (l : List H) (j : Nat) (h : 2 * j + 1 < l.length) :
    (hashLevel hp l).getD j z = hp (l.getD (2 * j) z) (l.getD (2 * j + 1) z) := by
  match l, j with
  | a :: b :: rest, 0 => rfl
  | a :: b :: rest, j + 1 =>
    simp only [List.length_cons] at h
    have hrec := hashLevel_getD rest j (by omega)
    rw [show 2 * (j + 1) = (2 * j + 1) + 1 from by omega,
      show (2 * j + 1) + 1 + 1 = ((2 * j + 1) + 1) + 1 from by omega]
    simp only [hashLevel, List.getD_cons_succ]
    exact hrec
  | [], j => simp at h
  | [a], j => simp at h

theorem buildLevelsF_ne_nil (f : Nat) (l : List H) :
    buildLevelsF hp f l ≠ [] := by
  match f with
  | 0 => simp [buildLevelsF]
  | f + 1 =>
    simp only [buildLevelsF]
    split
    · simp
    · simp

theorem nextPow2F_spec (f n : Nat) (h : n ≤ f) :
    (∃ k, nextPow2F f n = 2 ^ k) ∧ n ≤ nextPow2F f n := by
  match f with
  | 0 =>
    have : n = 0 := by omega
    subst this
    exact ⟨⟨0, rfl⟩, by simp [nextPow2F]⟩
  | f + 1 =>
    by_cases h1 : n ≤ 1
    · refine ⟨⟨0, ?_⟩, ?_⟩
      all_goals simp [nextPow2F, h1]
    · have hm : (n + 1) / 2 ≤ f := by omega
      have ih := nextPow2F_spec f ((n + 1) / 2) hm
      obtain ⟨⟨k, hk⟩, hle⟩ := ih
      refine ⟨⟨k + 1, ?_⟩, ?_⟩
      · simp only [nextPow2F, if_neg h1, hk]
        ring
      · simp only [nextPow2F, if_neg h1]
        omega

theorem nextPow2_spec (n : Nat) :
    (∃ k, nextPow2 n = 2 ^ k) ∧ n ≤ nextPow2 n :=
  nextPow2F_spec n n le_rfl

theorem getLastD_default_irrel {α : Type} (l : List α) (h : l ≠ []) (d1 d2 : α) :
    l.getLastD d1 = l.getLastD d2 := by
  cases l with
  | nil => exact absurd rfl h
  | cons a t => rw [List.getLastD_cons, List.getLastD_cons]

/-- The heart of C7/C10: in a power-of-two level, the sibling path collected
by `siblingsFrom` recomputes, via `verifyChain`, the last entry of the last
level — the root. -/
theorem verifyChain_siblings (f : Nat) :
    ∀ (l : List H) (i : Nat), l.length ≤ f → (∃ k, l.length = 2 ^ k) →
      i < l.length →
      verifyChain hp i (l.getD i z) (siblingsFrom z (buildLevelsF hp f l) i) =
        ((buildLevelsF hp f l).getLastD []).getLastD z := by
  induction f with
  | zero =>
    intro l i hf _ hi
    omega
  | succ f ih =>
    intro l i hf hpow hi
    by_cases h1 : l.length ≤ 1
    · have hlen : l.length = 1 := by omega
      have hi0 : i = 0 := by omega
      subst hi0
      match l, hlen with
      | [a], _ =>
        simp [buildLevelsF, siblingsFrom, verifyChain]
    · obtain ⟨k, hk⟩ := hpow
      have hk1 : k ≥ 1 := by
        by_contra hc
        have : k = 0 := by omega
        subst this
        simp at hk
        omega
      have heven : l.length % 2 = 0 := by
        rw [hk]
        have : 2 ^ k = 2 * 2 ^ (k - 1) := by
          rw [← pow_succ']
          congr 1
          omega
        omega
      have hlen2 : (hashLevel hp l).length = l.length / 2 := hashLevel_length hp l
      have hrest : buildLevelsF hp f (hashLevel hp l) ≠ [] :=
        buildLevelsF_ne_nil hp f _
      have hsib : (if i % 2 = 0 then i + 1 else i - 1) < l.length := by
        by_cases hpar : i % 2 = 0
        · simp only [if_pos hpar]; omega
        · simp only [if_neg hpar]; omega
      have hstep :
          (if i % 2 = 0 then
            hp (l.getD i z) (l.getD (if i % 2 = 0 then i + 1 else i - 1) z)
          else
            hp (l.getD (if i % 2 = 0 then i + 1 else i - 1) z) (l.getD i z)) =
          (hashLevel hp l).getD (i / 2) z := by
        by_cases hpar : i % 2 = 0
        · rw [if_pos hpar, if_pos hpar,
            hashLevel_getD hp z l (i / 2) (by omega)]
          congr 2 <;> omega
        · rw [if_neg hpar, if_neg hpar,
            hashLevel_getD hp z l (i / 2) (by omega)]
          congr 2 <;> omega
      calc verifyChain hp i (l.getD i z)
            (siblingsFrom z (buildLevelsF hp (f + 1) l) i)
          = verifyChain hp (i / 2) ((hashLevel hp l).getD (i / 2) z)
              (siblingsFrom z (buildLevelsF hp f (hashLevel hp l)) (i / 2)) := by
            simp only [buildLevelsF, if_neg h1, siblingsFrom, verifyChain,
              if_pos hsib]
            rw [hstep]
        _ = ((buildLevelsF hp f (hashLevel hp l)).getLastD []).getLastD z := by
            refine ih (hashLevel hp l) (i / 2) (by omega) ⟨k - 1, by
              rw [hlen2, hk]
              rcases Nat.exists_eq_add_of_le hk1 with ⟨k', hk'⟩
              subst hk'
              rw [show 1 + k' - 1 = k' from by omega, pow_add, pow_one]
              omega⟩ (by omega)
        _ = ((buildLevelsF hp (f + 1) l).getLastD []).getLastD z := by
            simp only [buildLevelsF, if_neg h1, List.getLastD_cons]
            congr 1
            exact getLastD_default_irrel _ hrest [] l

theorem getD_replicate (m j : Nat) : (List.replicate m z).getD j z = z := by
  induction m generalizing j with
  | zero => simp [List.getD]
  | succ m ih =>
    cases j with
    | zero => simp [List.replicate]
    | succ j => simp [List.replicate, ih j]

theorem padLeaves_length (leaves : List H) :
    (padLeaves z leaves).length = nextPow2 leaves.length := by
  have := (nextPow2_spec leaves.length).2
  simp [padLeaves]
  omega

theorem merkle_complete (leaves : List H) (i : Nat) (hne : leaves ≠ [])
    (hi : i < nextPow2 leaves.length) :
    merkleProof hp z leaves i =
      some ⟨i, siblingsFrom z (buildLevels hp (padLeaves z leaves)) i⟩ ∧
    verifyChain hp i ((padLeaves z leaves).getD i z)
        (siblingsFrom z (buildLevels hp (padLeaves z leaves)) i) =
      merkleRoot hp z leaves := by
  have hlen : (padLeaves z leaves).length = nextPow2 leaves.length :=
    padLeaves_length z leaves
  have hemp : leaves.isEmpty = false := by
    cases leaves with
    | nil => exact absurd rfl hne
    | cons a t => rfl
  constructor
  · rw [merkleProof, if_neg]
    push_neg
    refine ⟨?_, by simp [hemp]⟩
    simp [numLeaves, hemp]
    omega
  · have hkey := verifyChain_siblings hp z (padLeaves z leaves).length
      (padLeaves z leaves) i le_rfl
      (by obtain ⟨k, hk⟩ := (nextPow2_spec leaves.length).1; exact ⟨k, by omega⟩)
      (by omega)
    rw [buildLevels, hkey, merkleRoot, if_neg (by simp [hemp])]
    rfl

theorem verifyChain_injective
    (inj : ∀ a b a' b', hp a b = hp a' b' → a = a' ∧ b = b')
    (sibs : List H) :
    ∀ (idx : Nat) (h h' : H),
      verifyChain hp idx h sibs = verifyChain hp idx h' sibs → h = h' := by
  induction sibs with
  | nil => intro idx h h' heq; exact heq
  | cons s rest ih =>
    intro idx h h' heq
    simp only [verifyChain] at heq
    have := ih (idx / 2) _ _ heq
    by_cases hpar : idx % 2 = 0
    · rw [if_pos hpar, if_pos hpar] at this
      exact (inj _ _ _ _ this).1
    · rw [if_neg hpar, if_neg hpar] at this
      exact (inj _ _ _ _ this).2

end Merkle

/-- C7.  For a non-empty leaf list `L` and `i < |L|`, the generated proof
verifies the `i`-th leaf against the root, and (assuming the pair hash is
collision-free) verifies no other leaf value: the recomputation pairs each
level by the index bit, so a different leaf reaches a different root. -/
theorem c7_merkle_proof_correct {H : Type} [DecidableEq H]
    (hp : H → H → H) (z : H)
    (inj : ∀ a b a' b', hp a b = hp a' b' → a = a' ∧ b = b')
    (L : List H) (i : Nat) (hne : L ≠ []) (hi : i < L.length) :
    ∃ pr, merkleProof hp z L i = some pr ∧
      merkleVerify hp pr (L.getD i z) (merkleRoot hp z L) = true ∧
      ∀ h, h ≠ L.getD i z →
        merkleVerify hp pr h (merkleRoot hp z L) = false := by
  have hin : i < nextPow2 L.length := by
    have := (nextPow2_spec L.length).2
    omega
  obtain ⟨hsome, hchain⟩ := merkle_complete hp z L i hne hin
  have hleaf : (padLeaves z L).getD i z = L.getD i z := by
    unfold padLeaves
    rw [List.getD_append _ _ _ _ hi]
  refine ⟨_, hsome, ?_, ?_⟩
  · rw [merkleVerify, decide_eq_true_eq]
    rw [hleaf] at hchain
    exact hchain
  · intro h hh
    rw [merkleVerify, decide_eq_false_iff_not]
    intro hcontra
    rw [hleaf] at hchain
    exact hh (verifyChain_injective hp inj _ i h _ (hcontra.trans hchain.symm))

/-- C10.  Padding positions of a non-power-of-two tree are provable members
holding the all-zero leaf: for `|L| ≤ i < next_power_of_two(|L|)` the proof
exists and verifies the zero leaf; and the empty tree has the zero root and
no proofs at all. -/
theorem c10_padding_provable_and_empty {H : Type} [DecidableEq H]
    (hp : H → H → H) (z : H) (L : List H) (i : Nat) :
    (L ≠ [] → L.length ≤ i → i < nextPow2 L.length →
      ∃ pr, merkleProof hp z L i = some pr ∧
        merkleVerify hp pr z (merkleRoot hp z L) = true) ∧
    merkleRoot hp z ([] : List H) = z ∧
    ∀ j, merkleProof hp z ([] : List H) j = none := by
  refine ⟨fun hne hlo hhi => ?_, by simp [merkleRoot], fun j => by
    simp [merkleProof, numLeaves]⟩
  obtain ⟨hsome, hchain⟩ := merkle_complete hp z L i hne hhi
  have hleaf : (padLeaves z L).getD i z = z := by
    unfold padLeaves
    rw [List.getD_append_right _ _ _ _ hlo]
    exact getD_replicate z _ _
  refine ⟨_, hsome, ?_⟩
  rw [merkleVerify, decide_eq_true_eq]
  rw [hleaf] at hchain
  exact hchain

/-- Witness for C7: a three-leaf tree over the injective pairing function,
checking leaf 1 and rejecting the foreign leaf value 99. -/
theorem c7_merkle_proof_correct_witness :
    ∃ pr, merkleProof Nat.pair 0 [10, 20, 30] 1 = some pr ∧
      merkleVerify Nat.pair pr 20 (merkleRoot Nat.pair 0 [10, 20, 30]) = true ∧
      ∀ h, h ≠ 20 →
        merkleVerify Nat.pair pr h (merkleRoot Nat.pair 0 [10, 20, 30]) = false := by
  have := c7_merkle_proof_correct Nat.pair 0
    (fun a b a' b' h => Nat.pair_eq_pair.mp h) [10, 20, 30] 1 (by decide)
    (by decide)
  simpa using this

/-- Witness for C10: index 3 of a three-leaf tree is a provable padding
position holding the zero leaf, and the empty tree behaves as stated. -/
theorem c10_padding_provable_and_empty_witness :
    (∃ pr, merkleProof Nat.pair 0 [5, 6, 7] 3 = some pr ∧
      merkleVerify Nat.pair pr 0 (merkleRoot Nat.pair 0 [5, 6, 7]) = true) ∧
    merkleRoot Nat.pair 0 ([] : List Nat) = 0 ∧
    merkleProof Nat.pair 0 ([] : List Nat) 2 = none := by
  have h := c10_padding_provable_and_empty Nat.pair 0 [5, 6, 7] 3
  exact ⟨h.1 (by decide) (by decide) (by decide), h.2.1, h.2.2 2⟩

/-! ## FRI verifier (stark/src/fri.rs)

The field is the generic `StarkField` parameter of the Rust code, embedded
as an arbitrary decidable field `F`; Merkle path hashes are opaque. -/

/-- Error type of the STARK crate, `Error` in stark/src/lib.rs. -/
inductive StarkError
  | DeserializationError
  | MalformedProof
  | InvalidProofStructure
  | InvalidVerificationKey
  | InvalidPublicInputs
  | VerificationFailed
  | InvalidInputSize
  | FriVerificationFailed
  | AirConstraintFailed
  | BoundaryConstraintFailed
  | OodFrameVerificationFailed
  | MerkleProofFailed
  | InvalidFieldElement
  | InvalidProofOptions
  | EvaluationMismatch
  | DegreeBoundViolation
  | InvalidQueryPosition
deriving DecidableEq, Repr

/-- A per-query Merkle path, `MerkleProof` in fri.rs (hashes opaque). -/
structure FriMerkleProof where
  path : List Nat
  index : Nat
deriving Repr

section Fri

variable {F : Type} [Field F] [DecidableEq F]

/-- The FRI proof, `FriProof<F>` in fri.rs (commitments opaque). -/
structure FriProof (F : Type) where
  layer_commitments : List Nat
  layer_proofs : List (List FriMerkleProof)
  layer_evaluations : List (List F)
  remainder : List F
  num_queries : Nat

/-- FRI verification options, `FriOptions` in fri.rs. -/
structure FriOptions where
  num_layers : Nat
  blowup_factor : Nat
  num_queries : Nat
  max_remainder_degree : Nat
deriving Repr

/-- The committed evaluation read by FriVerifier::verify_folding. -/
def friCurrentEval (proof : FriProof F) (layer_idx query_idx : Nat) : F :=
  (proof.layer_evaluations.getD layer_idx []).getD query_idx 0

/-- The recomputed folded evaluation of FriVerifier::verify_folding:
`(f(x)+f(-x))/2 + challenge * (f(x)-f(-x))/(2x)` from the previous layer. -/
def friExpectedEval (proof : FriProof F) (layer_idx query_idx : Nat)
    (challenge : F) (evaluation_domain : List F) : F :=
  let prev_layer_evals := proof.layer_evaluations.getD (layer_idx - 1) []
  let query_pos :=
    ((proof.layer_proofs.getD layer_idx []).getD query_idx ⟨[], 0⟩).index
  let domain_size := evaluation_domain.length >>> layer_idx
  let x := evaluation_domain.getD (query_pos % domain_size) 0
  let f_x := prev_layer_evals.getD (query_pos * 2) 0
  let f_neg_x := prev_layer_evals.getD (query_pos * 2 + 1) 0
  let two := (1 : F) + 1
  let even_part := (f_x + f_neg_x) / two
  let odd_part := (f_x - f_neg_x) / (two * x)
  even_part + challenge * odd_part

/-- FriVerifier::verify_folding. -/
def verifyFolding (proof : FriProof F) (layer_idx query_idx : Nat)
    (challenge : F) (evaluation_domain : List F) : Except StarkError Unit :=
  if friCurrentEval proof layer_idx query_idx =
      friExpectedEval proof layer_idx query_idx challenge evaluation_domain
  then .ok ()
  else .error .FriVerificationFailed

/-- FriVerifier::evaluate_polynomial: Horner evaluation of the remainder
coefficients at the field image of the query index. -/
def evaluatePolynomial (coefficients : List F) (x_index : Nat) : F :=
  coefficients.reverse.foldl (fun result c => result * (x_index : F) + c) 0

/-- The query loop of FriVerifier::verify_remainder. -/
def remainderCheck (remainder : List F) : Nat → List F → Except StarkError Unit
  | _, [] => .ok ()
  | query_idx, expected :: rest =>
    if evaluatePolynomial remainder query_idx = expected then
      remainderCheck remainder (query_idx + 1) rest
    else .error .EvaluationMismatch

/-- FriVerifier::verify_remainder. -/
def verifyRemainder (options : FriOptions) (proof : FriProof F) :
    Except StarkError Unit :=
  if proof.remainder.length > options.max_remainder_degree + 1 then
    .error .DegreeBoundViolation
  else
    match proof.layer_evaluations.getLast? with
    | none => .error .FriVerificationFailed
    | some last_layer_evals => remainderCheck proof.remainder 0 last_layer_evals

theorem remainderCheck_spec (remainder : List F) (l : List F) :
    ∀ i, (remainderCheck remainder i l = .ok () ↔
        ∀ j < l.length, evaluatePolynomial remainder (i + j) = l.getD j 0) ∧
      ((∃ j < l.length, evaluatePolynomial remainder (i + j) ≠ l.getD j 0) →
        remainderCheck remainder i l = .error .EvaluationMismatch) := by
  induction l with
  | nil =>
    intro i
    refine ⟨by simp [remainderCheck], ?_⟩
    rintro ⟨j, hj, _⟩
    simp at hj
  | cons e rest ih =>
    intro i
    by_cases he : evaluatePolynomial remainder i = e
    · have step : remainderCheck remainder i (e :: rest) =
          remainderCheck remainder (i + 1) rest := by
        simp [remainderCheck, he]
      obtain ⟨ihok, iherr⟩ := ih (i + 1)
      constructor
      · rw [step, ihok]
        constructor
        · intro hall j hj
          cases j with
          | zero => simpa using he
          | succ j =>
            have := hall j (by simpa using hj)
            rw [show i + (j + 1) = i + 1 + j from by omega]
            simpa using this
        · intro hall j hj
          have := hall (j + 1) (by simpa using hj)
          rw [show i + 1 + j = i + (j + 1) from by omega]
          simpa using this
      · rintro ⟨j, hj, hne⟩
        cases j with
        | zero => exact absurd (by simpa using he) (by simpa using hne)
        | succ j =>
          rw [step]
          refine iherr ⟨j, by simpa using hj, ?_⟩
          rw [show i + 1 + j = i + (j + 1) from by omega]
          simpa using hne
    · have step : remainderCheck remainder i (e :: rest) =
          .error .EvaluationMismatch := by
        simp [remainderCheck, he]
      constructor
      · rw [step]
        constructor
        · intro h
          exact absurd h (by simp)
        · intro hall
          have := hall 0 (by simp)
          simp at this
          exact absurd this he
      · intro _
        exact step

/-- C5, amended.  Per layer `i > 0` and query, a mismatch between the
committed evaluation and the recomputed fold `(f(x)+f(−x))/2 +
α·(f(x)−f(−x))/(2x)` fails with `FriVerificationFailed`; a mismatch between
the Horner evaluation of the terminal remainder coefficients and the last
layer's evaluations fails with `EvaluationMismatch` (not
`FriVerificationFailed` as the claim states). -/
theorem c5_folding_and_remainder_errors {F : Type} [Field F] [DecidableEq F]
    (proof : FriProof F) :
    (∀ (layer_idx query_idx : Nat) (challenge : F)
        (evaluation_domain : List F),
      (verifyFolding proof layer_idx query_idx challenge evaluation_domain =
          .ok () ↔
        friCurrentEval proof layer_idx query_idx =
          friExpectedEval proof layer_idx query_idx challenge
            evaluation_domain) ∧
      (friCurrentEval proof layer_idx query_idx ≠
          friExpectedEval proof layer_idx query_idx challenge
            evaluation_domain →
        verifyFolding proof layer_idx query_idx challenge evaluation_domain =
          .error .FriVerificationFailed)) ∧
    (∀ (options : FriOptions) (last_layer_evals : List F),
      proof.remainder.length ≤ options.max_remainder_degree + 1 →
      proof.layer_evaluations.getLast? = some last_layer_evals →
      ((verifyRemainder options proof = .ok () ↔
        ∀ j < last_layer_evals.length,
          evaluatePolynomial proof.remainder j =
            last_layer_evals.getD j 0) ∧
      ((∃ j < last_layer_evals.length,
          evaluatePolynomial proof.remainder j ≠ last_layer_evals.getD j 0) →
        verifyRemainder options proof = .error .EvaluationMismatch))) := by
  constructor
  · intro layer_idx query_idx challenge evaluation_domain
    constructor
    · constructor
      · intro h
        by_contra hc
        simp [verifyFolding, hc] at h
      · intro h
        simp [verifyFolding, h]
    · intro h
      simp [verifyFolding, h]
  · intro options last_layer_evals hdeg hlast
    have hred : verifyRemainder options proof =
        remainderCheck proof.remainder 0 last_layer_evals := by
      rw [verifyRemainder, if_neg (by omega), hlast]
    obtain ⟨hok, herr⟩ := remainderCheck_spec proof.remainder last_layer_evals 0
    constructor
    · rw [hred, hok]
      constructor
      · intro h j hj
        simpa using h j hj
      · intro h j hj
        simpa using h j hj
    · intro hex
      rw [hred]
      refine herr ?_
      obtain ⟨j, hj, hne⟩ := hex
      exact ⟨j, hj, by simpa using hne⟩

end Fri

/-- Options with the source's small remainder-degree constant. -/
def friSmallOptions : FriOptions := ⟨1, 8, 1, 7⟩

/-- A single-layer proof whose remainder polynomial (the constant 1) does
not match the last layer's evaluation 2. -/
def friMismatchProof : FriProof ℚ :=
  ⟨[0], [[⟨[], 0⟩]], [[2]], [1], 1⟩

/-- C5, counterexample.  A remainder/last-layer mismatch makes
`verify_remainder` fail with `EvaluationMismatch`, not with the
`FriVerificationFailed` error the claim names. -/
theorem c5_remainder_mismatch_error :
    verifyRemainder friSmallOptions friMismatchProof =
        .error .EvaluationMismatch ∧
      StarkError.EvaluationMismatch ≠ StarkError.FriVerificationFailed := by
  refine ⟨?_, by decide⟩
  norm_num [verifyRemainder, friMismatchProof, friSmallOptions, remainderCheck,
    evaluatePolynomial]

/-- A two-layer proof whose fold and remainder are both consistent. -/
def friConsistentProof : FriProof ℚ :=
  ⟨[0, 0], [[⟨[], 0⟩], [⟨[], 0⟩]], [[0, 0], [0]], [0], 2⟩

/-- Witness for C5 at a concrete consistent proof: the fold check and the
remainder check both accept. -/
theorem c5_folding_and_remainder_errors_witness :
    verifyFolding friConsistentProof 1 0 (3 : ℚ) [1, 5] = .ok () ∧
      verifyRemainder friSmallOptions friConsistentProof = .ok () :=
  ⟨((c5_folding_and_remainder_errors friConsistentProof).1 1 0 3 [1, 5]).1.mpr
      (by simp [friCurrentEval, friExpectedEval, friConsistentProof]),
    ((c5_folding_and_remainder_errors friConsistentProof).2 friSmallOptions [0]
        (by simp [friConsistentProof, friSmallOptions]) rfl).1.mpr
      (by simp [evaluatePolynomial, friConsistentProof])⟩

/-! ## BN254 scalar-field arithmetic (utils.rs) and the primality of the modulus -/


/-- Fuel-driven square-and-multiply modular exponentiation. -/
def powModF (m : Nat) : Nat → Nat → Nat → Nat
  | 0, _, _ => 1
  | f + 1, b, e =>
    if e = 0 then 1
    else
      let r := powModF m f (b * b % m) (e / 2)
      if e % 2 = 1 then r * b % m else r

/-- Modular exponentiation `b ^ e % m` (for `1 < m`). -/
def powMod (m b e : Nat) : Nat := powModF m e (b % m) e

theorem powModF_correct (m : Nat) (hm : 1 < m) (f : Nat) :
    ∀ e b, e ≤ f → powModF m f b e = b ^ e % m := by
  induction f with
  | zero =>
    intro e b he
    have : e = 0 := by omega
    subst this
    simp [powModF, Nat.mod_eq_of_lt hm]
  | succ f ih =>
    intro e b he
    by_cases h0 : e = 0
    · subst h0
      simp [powModF, Nat.mod_eq_of_lt hm]
    · have h2 : e / 2 ≤ f := by omega
      have hrec := ih (e / 2) (b * b % m) h2
      simp only [powModF, if_neg h0, hrec]
      have hsplit : b ^ e = (b ^ 2) ^ (e / 2) * b ^ (e % 2) := by
        rw [← pow_mul, ← pow_add]
        congr 1
        omega
      by_cases hpar : e % 2 = 1
      · rw [if_pos hpar, hsplit, hpar, pow_one, ← Nat.pow_mod,
          Nat.mod_mul_mod, pow_two]
      · have hpar0 : e % 2 = 0 := by omega
        rw [if_neg hpar, hsplit, hpar0, pow_zero, Nat.mul_one, ← Nat.pow_mod,
          pow_two]

theorem powMod_correct (m b e : Nat) (hm : 1 < m) : powMod m b e = b ^ e % m := by
  rw [powMod, powModF_correct m hm e e (b % m) le_rfl, ← Nat.pow_mod]

theorem powMod_lt (m b e : Nat) (hm : 1 < m) : powMod m b e < m := by
  rw [powMod_correct m b e hm]
  exact Nat.mod_lt _ (by omega)

/-- Cast bridge: `powMod` computes the power of the cast in `ZMod m`. -/
theorem castPow_eq_powMod (m g e : Nat) (hm : 1 < m) :
    ((g : ZMod m)) ^ e = ((powMod m g e : Nat) : ZMod m) := by
  rw [powMod_correct m g e hm, ZMod.natCast_mod, Nat.cast_pow]

theorem castPow_eq_one (m g e : Nat) (hm : 1 < m)
    (h : powMod m g e = 1) : ((g : ZMod m)) ^ e = 1 := by
  rw [castPow_eq_powMod m g e hm, h, Nat.cast_one]

theorem castPow_ne_one (m g e : Nat) (hm : 1 < m)
    (h : powMod m g e ≠ 1) : ((g : ZMod m)) ^ e ≠ 1 := by
  rw [castPow_eq_powMod m g e hm]
  intro hc
  haveI : NeZero m := ⟨by omega⟩
  haveI : Fact (1 < m) := ⟨hm⟩
  have h1 : ((powMod m g e : Nat) : ZMod m).val = powMod m g e :=
    ZMod.val_cast_of_lt (powMod_lt m g e hm)
  rw [hc, ZMod.val_one m] at h1
  exact h (h1.symm)

/-- Lucas primality from an explicit prime factor list of `p - 1`. -/
theorem lucas_with_list (p g : Nat) (L : List Nat) (hp : 1 < p)
    (hL : ∀ q ∈ L, Nat.Prime q) (hprod : L.prod = p - 1)
    (hg : powMod p g (p - 1) = 1)
    (hne : ∀ q ∈ L, powMod p g ((p - 1) / q) ≠ 1) : p.Prime := by
  refine lucas_primality p (g : ZMod p) (castPow_eq_one p g (p - 1) hp hg) ?_
  intro q hq hdvd
  have hmem : q ∈ L := by
    refine mem_list_primes_of_dvd_prod hq.prime ?_ ?_
    · intro r hr
      exact (hL r hr).prime
    · rw [hprod]
      exact hdvd
  exact castPow_ne_one p g ((p - 1) / q) hp (hne q hmem)

/-- 639533339 - 1 = 2 * 229 * 853 * 1637. -/
theorem prime_639533339 : Nat.Prime 639533339 := by
  refine lucas_with_list 639533339 2 [2, 229, 853, 1637] (by norm_num) ?_
    (by decide) (by decide) (by decide)
  intro q hq
  fin_cases hq <;> norm_num

set_option maxRecDepth 40000 in
/-- 65865678001877903 - 1 = 2 * 83 * 379 * 1637 * 639533339. -/
theorem prime_65865678001877903 : Nat.Prime 65865678001877903 := by
  refine lucas_with_list 65865678001877903 5 [2, 83, 379, 1637, 639533339]
    (by norm_num) ?_ (by decide) (by decide) (by decide)
  intro q hq
  fin_cases hq
  · norm_num
  · norm_num
  · norm_num
  · norm_num
  · exact prime_639533339

set_option maxRecDepth 40000 in
/-- 13818364434197438864469338081 - 1 = 2^5 * 5 * 823 * 1593227 *
65865678001877903. -/
theorem prime_13818364434197438864469338081 :
    Nat.Prime 13818364434197438864469338081 := by
  refine lucas_with_list 13818364434197438864469338081 3
    [2, 2, 2, 2, 2, 5, 823, 1593227, 65865678001877903]
    (by norm_num) ?_ (by decide) (by decide) (by decide)
  intro q hq
  fin_cases hq
  · norm_num
  · norm_num
  · norm_num
  · norm_num
  · norm_num
  · norm_num
  · norm_num
  · norm_num
  · exact prime_65865678001877903

set_option maxRecDepth 40000 in
/-- 12048837557 - 1 = 2^2 * 7^2 * 661 * 93001. -/
theorem prime_12048837557 : Nat.Prime 12048837557 := by
  refine lucas_with_list 12048837557 2 [2, 2, 7, 7, 661, 93001]
    (by norm_num) ?_ (by decide) (by decide) (by decide)
  intro q hq
  fin_cases hq <;> norm_num

set_option maxRecDepth 40000 in
/-- 5156902474397 - 1 = 2^2 * 107 * 12048837557. -/
theorem prime_5156902474397 : Nat.Prime 5156902474397 := by
  refine lucas_with_list 5156902474397 2 [2, 2, 107, 12048837557]
    (by norm_num) ?_ (by decide) (by decide) (by decide)
  intro q hq
  fin_cases hq
  · norm_num
  · norm_num
  · norm_num
  · exact prime_12048837557

set_option maxRecDepth 40000 in
/-- 1670836401704629 - 1 = 2^2 * 3^4 * 5156902474397. -/
theorem prime_1670836401704629 : Nat.Prime 1670836401704629 := by
  refine lucas_with_list 1670836401704629 2 [2, 2, 3, 3, 3, 3, 5156902474397]
    (by norm_num) ?_ (by decide) (by decide) (by decide)
  intro q hq
  fin_cases hq
  · norm_num
  · norm_num
  · norm_num
  · norm_num
  · norm_num
  · norm_num
  · exact prime_5156902474397

set_option maxRecDepth 40000 in
/-- 405928799 - 1 = 2 * 11 * 3691 * 4999. -/
theorem prime_405928799 : Nat.Prime 405928799 := by
  refine lucas_with_list 405928799 22 [2, 11, 3691, 4999]
    (by norm_num) ?_ (by decide) (by decide) (by decide)
  intro q hq
  fin_cases hq <;> norm_num

/-- The BN254 scalar-field modulus, `BN254_SCALAR_MODULUS` in utils.rs. -/
def bn254r : Nat :=
  21888242871839275222246405745257275088548364400416034343698204186575808495617

set_option maxRecDepth 40000 in
/-- bn254r - 1 = 2^28 * 3^2 * 13 * 29 * 983 * 11003 * 237073 * 405928799 *
1670836401704629 * 13818364434197438864469338081, giving a full Lucas
certificate with generator 5. -/
theorem bn254r_prime : Nat.Prime bn254r := by
  refine lucas_with_list bn254r 5
    [2, 2, 2, 2, 2, 2, 2, 2, 2, 2, 2, 2, 2, 2, 2, 2, 2, 2, 2, 2, 2, 2, 2, 2,
      2, 2, 2, 2, 3, 3, 13, 29, 983, 11003, 237073, 405928799,
      1670836401704629, 13818364434197438864469338081]
    (by norm_num [bn254r]) ?_ (by decide) (by decide) (by decide)
  intro q hq
  fin_cases hq
  · norm_num
  · norm_num
  · norm_num
  · norm_num
  · norm_num
  · norm_num
  · norm_num
  · norm_num
  · norm_num
  · norm_num
  · norm_num
  · norm_num
  · norm_num
  · norm_num
  · norm_num
  · norm_num
  · norm_num
  · norm_num
  · norm_num
  · norm_num
  · norm_num
  · norm_num
  · norm_num
  · norm_num
  · norm_num
  · norm_num
  · norm_num
  · norm_num
  · norm_num
  · norm_num
  · norm_num
  · norm_num
  · norm_num
  · norm_num
  · norm_num
  · exact prime_405928799
  · exact prime_1670836401704629
  · exact prime_13818364434197438864469338081

/-- Modular addition, `fr_add` in utils.rs. -/
def fr_add (a b : Nat) : Nat := (a + b) % bn254r

/-- Modular subtraction, `fr_sub` in utils.rs. -/
def fr_sub (a b : Nat) : Nat :=
  if b ≤ a then a - b else (a + (bn254r - b)) % bn254r

/-- Modular multiplication, `fr_mul` in utils.rs. -/
def fr_mul (a b : Nat) : Nat := a * b % bn254r

/-- Square-and-multiply modular exponentiation, `fr_pow` in utils.rs: the
base is first reduced, then the LSB-first loop runs. -/
def fr_pow (base exp : Nat) : Nat := powMod bn254r base exp

/-- Modular inverse via Fermat, `fr_inv` in utils.rs: `None` on zero, else
`a^(r-2) mod r`. -/
def fr_inv (a : Nat) : Option Nat :=
  if a = 0 then none else some (fr_pow a (bn254r - 2))

theorem bn254r_gt_one : 1 < bn254r := by norm_num [bn254r]

/-- C9, amended.  For nonzero `a < r` the inverse is computed as
`a^(r-2) mod r` and `fr_mul a (fr_inv a) = 1`; the inverse of zero fails by
returning `None` — the bare `Option` carries no error value, so no
`InvalidInputSize` (or any other) error is produced, contrary to the claim. -/
theorem c9_fr_inv_fermat (a : Nat) :
    (0 < a → a < bn254r →
      fr_inv a = some (fr_pow a (bn254r - 2)) ∧
        fr_mul a ((fr_inv a).getD 0) = 1) ∧
      fr_inv 0 = none := by
  refine ⟨fun ha0 halt => ?_, rfl⟩
  have hne : a ≠ 0 := by omega
  have hinv : fr_inv a = some (fr_pow a (bn254r - 2)) := by
    simp [fr_inv, hne]
  refine ⟨hinv, ?_⟩
  rw [hinv]
  simp only [Option.getD_some]
  rw [fr_mul, fr_pow, powMod_correct _ _ _ bn254r_gt_one]
  have hr2 : 1 < bn254r := bn254r_gt_one
  haveI : Fact (Nat.Prime bn254r) := ⟨bn254r_prime⟩
  haveI : Fact (1 < bn254r) := ⟨hr2⟩
  haveI : NeZero bn254r := ⟨by omega⟩
  have key : a ^ (bn254r - 1) % bn254r = 1 := by
    have hcast : (a : ZMod bn254r) ≠ 0 := by
      intro hc
      have hval := ZMod.val_cast_of_lt halt
      rw [hc, ZMod.val_zero] at hval
      omega
    have hf : ((a ^ (bn254r - 1) : Nat) : ZMod bn254r) = 1 := by
      rw [Nat.cast_pow]
      exact ZMod.pow_card_sub_one_eq_one hcast
    calc a ^ (bn254r - 1) % bn254r
        = ((a ^ (bn254r - 1) : Nat) : ZMod bn254r).val :=
          (ZMod.val_natCast _).symm
      _ = (1 : ZMod bn254r).val := by rw [hf]
      _ = 1 := ZMod.val_one _
  calc a * (a ^ (bn254r - 2) % bn254r) % bn254r
      = (a ^ (bn254r - 2) % bn254r) * a % bn254r := by rw [Nat.mul_comm]
    _ = a ^ (bn254r - 2) * a % bn254r := by rw [Nat.mod_mul_mod]
    _ = a ^ (bn254r - 1) % bn254r := by
        rw [← pow_succ, show bn254r - 2 + 1 = bn254r - 1 from by omega]
    _ = 1 := key


/-- C9, counterexample.  The inverse of zero returns the bare `None`: the
`Option` result carries no error value at all, so the failure is not
reported as `InvalidInputSize` (nor as any other error). -/
theorem c9_zero_inverse_unreported :
    fr_inv 0 = none ∧ ∀ x : Nat, fr_inv 0 ≠ some x := by
  refine ⟨rfl, fun x h => ?_⟩
  simp [fr_inv] at h

/-- Witness for C9 at `a = 3`. -/
theorem c9_fr_inv_fermat_witness :
    fr_inv 3 = some (fr_pow 3 (bn254r - 2)) ∧
      fr_mul 3 ((fr_inv 3).getD 0) = 1 ∧ fr_inv 0 = none :=
  ⟨((c9_fr_inv_fermat 3).1 (by decide) (by decide)).1,
    ((c9_fr_inv_fermat 3).1 (by decide) (by decide)).2,
    (c9_fr_inv_fermat 3).2⟩

/-! ## PLONK gate-constraint check (plonk/plonk.rs)

The field is the BN254 scalar field `Fr`; the G1 commitments carried by the
proof and key are opaque to this check and appear as a type parameter. -/

/-- The BN254 scalar field of the PLONK verifier. -/
abbrev Fr := ZMod bn254r

/-- Error type of the PLONK crate, `Error` in plonk/mod.rs. -/
inductive PlonkError
  | DeserializationError
  | MalformedProof
  | InvalidVerificationKey
  | InvalidPublicInputs
  | VerificationFailed
  | InvalidInputSize
  | KZGVerificationFailed
  | InvalidSRS
  | TranscriptError
  | EvaluationMismatch
  | InvalidProof
  | InvalidG1Point
  | InvalidG2Point
  | InvalidPublicInput
  | PairingCheckFailed
  | InvalidSrsSize
  | InvalidDomain
  | MsmError
  | InvalidCircuitSize
deriving DecidableEq, Repr

/-- The PLONK proof, `PlonkProof` in plonk/plonk.rs. -/
structure PlonkProof (G1 : Type) where
  wire_commitments : G1 × G1 × G1
  permutation_commitment : G1
  quotient_commitments : G1 × G1 × G1
  wire_evals : Fr × Fr × Fr
  permutation_evals : Fr × Fr
  selector_evals : Fr × Fr × Fr × Fr × Fr
  opening_proof_zeta : G1
  opening_proof_omega : G1

/-- The PLONK verification key, `PlonkVerificationKey` in plonk/plonk.rs. -/
structure PlonkVerificationKey (G1 : Type) where
  n : Nat
  num_public_inputs : Nat
  selector_commitments : G1 × G1 × G1 × G1 × G1
  permutation_commitments : G1 × G1 × G1
  lagrange_first : G1
  lagrange_last : G1
  omega : Fr
  k1 : Fr
  k2 : Fr

/-- The arithmetic-gate value computed in verify_gate_constraints:
`q_L·a + q_R·b + q_O·c + q_M·a·b + q_C + PI`, all at ζ. -/
def gateConstraintValue {G1 : Type} (proof : PlonkProof G1) (pi_zeta : Fr) :
    Fr :=
  let (a_zeta, b_zeta, c_zeta) := proof.wire_evals
  let (ql_zeta, qr_zeta, qo_zeta, qm_zeta, qc_zeta) := proof.selector_evals
  ql_zeta * a_zeta + qr_zeta * b_zeta + qo_zeta * c_zeta +
    qm_zeta * a_zeta * b_zeta + qc_zeta + pi_zeta

set_option linter.unusedVariables false in
/-- verify_gate_constraints in plonk/plonk.rs: the gate value, the
permutation numerator and the first-row constraint are computed and then
discarded — the function returns Ok(()) unconditionally, exactly as the
source does. -/
def verifyGateConstraints {G1 : Type} (proof : PlonkProof G1)
    (vk : PlonkVerificationKey G1)
    (zeta alpha beta gamma zh_zeta l1_zeta pi_zeta : Fr) :
    Except PlonkError Unit :=
  let gate_constraint := gateConstraintValue proof pi_zeta
  let (a_zeta, b_zeta, c_zeta) := proof.wire_evals
  let (z_zeta, z_omega_zeta) := proof.permutation_evals
  let perm_num :=
    (a_zeta + beta * zeta + gamma) *
    (b_zeta + beta * vk.k1 * zeta + gamma) *
    (c_zeta + beta * vk.k2 * zeta + gamma) *
    z_zeta
  let first_row_constraint := l1_zeta * (z_zeta - 1)
  .ok ()

/-- The domain-separation labels of plonk/transcript.rs used by the
verifier (byte-string constants in the source). -/
inductive TranscriptLabel
  | PLONK_PROTOCOL
  | VK_DOMAIN
  | PUBLIC_INPUT
  | WIRE_COMMITMENT
  | BETA_CHALLENGE
  | GAMMA_CHALLENGE
  | PERMUTATION_COMMITMENT
  | ALPHA_CHALLENGE
  | QUOTIENT_COMMITMENT
  | ZETA_CHALLENGE
  | WIRE_EVAL
  | PERMUTATION_EVAL
  | SELECTOR_EVAL
  | V_CHALLENGE
  | OPENING_PROOF
  | U_CHALLENGE
deriving DecidableEq, Repr

/-- External primitives of the PLONK verifier: the Keccak-based Fiat-Shamir
transcript (state type `T`), G1 point validation and coordinate
serialisation, and the two host KZG opening checks over the SRS. -/
structure PlonkBackend (G1 T Srs : Type) where
  transcript_new : TranscriptLabel → T
  absorb_bytes : T → TranscriptLabel → List Nat → T
  absorb_field : T → TranscriptLabel → Fr → T
  absorb_point : T → TranscriptLabel → G1 → T
  squeeze_challenge : T → TranscriptLabel → Fr × T
  validate_g1_point : G1 → Bool
  g1_coords_be : G1 → List Nat
  kzg_batch_opening : List G1 → List Fr → Fr → G1 → Srs →
    Except PlonkError Bool
  kzg_opening : G1 → Fr → Fr → G1 → Srs → Except PlonkError Bool

section PlonkVerifier

variable {G1 T Srs : Type}

/-- Big-endian byte encoding on `k` bytes, as `to_be_bytes` does. -/
def byteBE (k n : Nat) : List Nat := (byteLE k n).reverse

/-- usize::is_power_of_two. -/
def isPowerOfTwoB (n : Nat) : Bool := n ≠ 0 && (n &&& (n - 1)) == 0

/-- encode_vk_for_transcript in plonk/plonk.rs. -/
def encodeVkForTranscript (B : PlonkBackend G1 T Srs)
    (vk : PlonkVerificationKey G1) : List Nat :=
  let (s1, s2, s3, s4, s5) := vk.selector_commitments
  let (p1, p2, p3) := vk.permutation_commitments
  byteBE 8 vk.n ++ byteBE 8 vk.num_public_inputs ++
    B.g1_coords_be s1 ++ B.g1_coords_be s2 ++ B.g1_coords_be s3 ++
    B.g1_coords_be s4 ++ B.g1_coords_be s5 ++
    B.g1_coords_be p1 ++ B.g1_coords_be p2 ++ B.g1_coords_be p3 ++
    B.g1_coords_be vk.lagrange_first ++ B.g1_coords_be vk.lagrange_last ++
    byteBE 32 vk.omega.val ++ byteBE 32 vk.k1.val ++ byteBE 32 vk.k2.val

/-- PlonkVerificationKey::validate in plonk/plonk.rs. -/
def plonkVkValidate (B : PlonkBackend G1 T Srs)
    (vk : PlonkVerificationKey G1) : Except PlonkError Unit :=
  if isPowerOfTwoB vk.n = false then .error .InvalidCircuitSize
  else
    let (s1, s2, s3, s4, s5) := vk.selector_commitments
    let (p1, p2, p3) := vk.permutation_commitments
    if [s1, s2, s3, s4, s5].all B.validate_g1_point = false then
      .error .InvalidG1Point
    else if [p1, p2, p3].all B.validate_g1_point = false then
      .error .InvalidG1Point
    else if B.validate_g1_point vk.lagrange_first = false then
      .error .InvalidG1Point
    else if B.validate_g1_point vk.lagrange_last = false then
      .error .InvalidG1Point
    else if vk.omega ^ vk.n ≠ 1 then .error .InvalidDomain
    else .ok ()

/-- The Lagrange-interpolation loop of compute_public_input_eval. -/
def piEvalLoop (zh point omega : Fr) (n : Nat) :
    List Fr → Fr → Fr → Except PlonkError Fr
  | [], result, _ => .ok result
  | input :: rest, result, omega_i =>
    let numerator := zh * omega_i
    let denominator := (point - omega_i) * (n : Fr)
    if denominator = 0 then .error .InvalidDomain
    else
      let lagrange_i := numerator * denominator⁻¹
      piEvalLoop zh point omega n rest (result - input * lagrange_i)
        (omega_i * omega)

/-- compute_public_input_eval in plonk/plonk.rs:
`PI(X) = -Σᵢ public_inputs[i]·Lᵢ(X)` at `point`. -/
def computePublicInputEval (public_inputs : List Fr) (point omega : Fr)
    (n : Nat) : Except PlonkError Fr :=
  if public_inputs.isEmpty then .ok 0
  else
    let zh := point ^ n - 1
    piEvalLoop zh point omega n public_inputs 0 1

set_option linter.unusedVariables false in
/-- compute_lagrange_first in plonk/plonk.rs:
`L₁(X) = (Xⁿ-1)/(n(X-1))`, with `L₁(1) = 1`. -/
def computeLagrangeFirst (point zh omega : Fr) (n : Nat) : Fr :=
  if point = 1 then 1
  else
    let denominator := (n : Fr) * (point - 1)
    if denominator = 0 then 0
    else zh * denominator⁻¹

set_option linter.unusedVariables false in
/-- verify_batch_openings in plonk/plonk.rs: the batched opening at ζ over
wires, selectors and the permutation, then the single opening at ζω. -/
def verifyBatchOpenings (B : PlonkBackend G1 T Srs) (proof : PlonkProof G1)
    (vk : PlonkVerificationKey G1) (srs : Srs) (zeta v u : Fr) :
    Except PlonkError Unit :=
  let zeta_omega := zeta * vk.omega
  let (w1, w2, w3) := proof.wire_commitments
  let (s1, s2, s3, s4, s5) := vk.selector_commitments
  let commitments_zeta :=
    [w1, w2, w3, s1, s2, s3, s4, s5, proof.permutation_commitment]
  let (e1, e2, e3) := proof.wire_evals
  let (q1, q2, q3, q4, q5) := proof.selector_evals
  let evals_zeta := [e1, e2, e3, q1, q2, q3, q4, q5, proof.permutation_evals.1]
  match B.kzg_batch_opening commitments_zeta evals_zeta zeta
      proof.opening_proof_zeta srs with
  | .error e => .error e
  | .ok batch_valid_zeta =>
    if batch_valid_zeta = false then .error .InvalidProof
    else
      match B.kzg_opening proof.permutation_commitment zeta_omega
          proof.permutation_evals.2 proof.opening_proof_omega srs with
      | .error e => .error e
      | .ok omega_valid =>
        if omega_valid = false then .error .InvalidProof
        else .ok ()

set_option linter.unusedVariables false in
/-- verify_plonk_proof in plonk/plonk.rs: input-count check, key
validation, the full Fiat-Shamir challenge schedule, the (vacuous) gate
check and the KZG openings; on success the result is Ok(true). -/
def verifyPlonkProof (B : PlonkBackend G1 T Srs) (proof : PlonkProof G1)
    (vk : PlonkVerificationKey G1) (public_inputs : List Fr) (srs : Srs) :
    Except PlonkError Bool :=
  if public_inputs.length ≠ vk.num_public_inputs then
    .error .InvalidPublicInput
  else
    match plonkVkValidate B vk with
    | .error e => .error e
    | .ok () =>
      let t0 := B.transcript_new .PLONK_PROTOCOL
      let t1 := B.absorb_bytes t0 .VK_DOMAIN (encodeVkForTranscript B vk)
      let t2 := public_inputs.foldl
        (fun t input => B.absorb_field t .PUBLIC_INPUT input) t1
      let (w1, w2, w3) := proof.wire_commitments
      let t3 := B.absorb_point (B.absorb_point
        (B.absorb_point t2 .WIRE_COMMITMENT w1) .WIRE_COMMITMENT w2)
        .WIRE_COMMITMENT w3
      let (beta, t4) := B.squeeze_challenge t3 .BETA_CHALLENGE
      let (gamma, t5) := B.squeeze_challenge t4 .GAMMA_CHALLENGE
      let t6 := B.absorb_point t5 .PERMUTATION_COMMITMENT
        proof.permutation_commitment
      let (alpha, t7) := B.squeeze_challenge t6 .ALPHA_CHALLENGE
      let (qc1, qc2, qc3) := proof.quotient_commitments
      let t8 := B.absorb_point (B.absorb_point
        (B.absorb_point t7 .QUOTIENT_COMMITMENT qc1) .QUOTIENT_COMMITMENT qc2)
        .QUOTIENT_COMMITMENT qc3
      let (zeta, t9) := B.squeeze_challenge t8 .ZETA_CHALLENGE
      let (e1, e2, e3) := proof.wire_evals
      let t10 := B.absorb_field (B.absorb_field
        (B.absorb_field t9 .WIRE_EVAL e1) .WIRE_EVAL e2) .WIRE_EVAL e3
      let (p1, p2) := proof.permutation_evals
      let t11 := B.absorb_field (B.absorb_field t10 .PERMUTATION_EVAL p1)
        .PERMUTATION_EVAL p2
      let (q1, q2, q3, q4, q5) := proof.selector_evals
      let t12 := B.absorb_field (B.absorb_field (B.absorb_field
        (B.absorb_field (B.absorb_field t11 .SELECTOR_EVAL q1)
          .SELECTOR_EVAL q2) .SELECTOR_EVAL q3) .SELECTOR_EVAL q4)
        .SELECTOR_EVAL q5
      let (v, t13) := B.squeeze_challenge t12 .V_CHALLENGE
      let t14 := B.absorb_point (B.absorb_point t13 .OPENING_PROOF
        proof.opening_proof_zeta) .OPENING_PROOF proof.opening_proof_omega
      let (u, t15) := B.squeeze_challenge t14 .U_CHALLENGE
      match computePublicInputEval public_inputs zeta vk.omega vk.n with
      | .error e => .error e
      | .ok pi_zeta =>
        let zh_zeta := zeta ^ vk.n - 1
        let l1_zeta := computeLagrangeFirst zeta zh_zeta vk.omega vk.n
        match verifyGateConstraints proof vk zeta alpha beta gamma zh_zeta
            l1_zeta pi_zeta with
        | .error e => .error e
        | .ok () =>
          match verifyBatchOpenings B proof vk srs zeta v u with
          | .error e => .error e
          | .ok () => .ok true

theorem verifyGateConstraints_always_ok {G1 : Type} (proof : PlonkProof G1)
    (vk : PlonkVerificationKey G1)
    (zeta alpha beta gamma zh_zeta l1_zeta pi_zeta : Fr) :
    verifyGateConstraints proof vk zeta alpha beta gamma zh_zeta l1_zeta
      pi_zeta = .ok () := rfl

theorem verifyPlonkProof_never_ok_false (B : PlonkBackend G1 T Srs)
    (proof : PlonkProof G1) (vk : PlonkVerificationKey G1)
    (public_inputs : List Fr) (srs : Srs) :
    verifyPlonkProof B proof vk public_inputs srs ≠ .ok false := by
  intro h
  rw [verifyPlonkProof] at h
  simp only [verifyGateConstraints_always_ok] at h
  repeat' split at h
  all_goals simp at h

end PlonkVerifier

/-- A proof whose evaluations give the gate value `q_C = 1`, hence a gate
constraint that is violated. -/
def gateOneProof : PlonkProof Unit :=
  ⟨((), (), ()), (), ((), (), ()), (0, 0, 0), (0, 0), (0, 0, 0, 0, 1), (), ()⟩

/-- A trivial verification key for the same circuit shape. -/
def trivialPlonkVK : PlonkVerificationKey Unit :=
  ⟨8, 0, ((), (), (), (), ()), ((), (), ()), (), (), 1, 2, 3⟩

/-- C1 (code bug).  `verify_gate_constraints` returns Ok(()) for every
input: the computed gate value is discarded, so a nonzero gate value — such
as the value 1 produced by `gateOneProof` — never causes `verify_plonk_proof`
to return Ok(false).  Indeed `verify_plonk_proof` cannot return Ok(false) on
any input at all: it either errors or returns Ok(true), acceptance being
decided by the KZG openings alone. -/
theorem c1_gate_value_never_checked :
    (∀ (G1 : Type) (proof : PlonkProof G1) (vk : PlonkVerificationKey G1)
        (zeta alpha beta gamma zh_zeta l1_zeta pi_zeta : Fr),
      verifyGateConstraints proof vk zeta alpha beta gamma zh_zeta l1_zeta
        pi_zeta = .ok ()) ∧
    gateConstraintValue gateOneProof 0 = 1 ∧ (1 : Fr) ≠ 0 ∧
    (∀ (G1 T Srs : Type) (B : PlonkBackend G1 T Srs) (proof : PlonkProof G1)
        (vk : PlonkVerificationKey G1) (public_inputs : List Fr) (srs : Srs),
      verifyPlonkProof B proof vk public_inputs srs ≠ .ok false) := by
  refine ⟨fun G1 proof vk zeta alpha beta gamma zh l1 pi => rfl, ?_, ?_, ?_⟩
  · decide
  · decide
  · intro G1 T Srs B proof vk public_inputs srs
    exact verifyPlonkProof_never_ok_false B proof vk public_inputs srs

/-! ## Groth16 verifier (groth16.rs) -/


/-- Error type of the Groth16 module, `Error` in groth16.rs. -/
inductive G16Error
  | DeserializationError
  | MalformedProof
  | InvalidVerificationKey
  | InvalidPublicInputs
  | VerificationFailed
  | InvalidInputSize
deriving DecidableEq, Repr

/-- The Groth16 verification key, `VerifyingKey<Bn254>` as used by
groth16.rs. -/
structure Groth16VKey (G1 G2 : Type) where
  alpha_g1 : G1
  beta_g2 : G2
  gamma_g2 : G2
  delta_g2 : G2
  gamma_abc_g1 : List G1

/-- The Groth16 proof, `Proof<Bn254>` as used by groth16.rs. -/
structure Groth16Proof (G1 G2 : Type) where
  a : G1
  b : G2
  c : G1

/-- The external curve backend (arkworks in the source): deserialisers,
point validity predicates, group operations and the multi-pairing, kept
abstract. -/
structure CurveBackend (G1 G2 GT Fr : Type) where
  deser_vk : List Nat → Option (Groth16VKey G1 G2)
  deser_proof : List Nat → Option (Groth16Proof G1 G2)
  deser_fr : List Nat → Option Fr
  deser_gt : List Nat → Option GT
  g1_on_curve : G1 → Bool
  g1_in_subgroup : G1 → Bool
  g2_on_curve : G2 → Bool
  g2_in_subgroup : G2 → Bool
  g1_neg : G1 → G1
  g1_add : G1 → G1 → G1
  g1_smul : G1 → Fr → G1
  g1_default : G1
  multi_pairing : List (G1 × G2) → GT
  gt_one : GT

section Groth16

variable {G1 G2 GT Fr : Type} [DecidableEq GT]

/-- validate_vk in groth16.rs: every key point on-curve and in-subgroup. -/
def validateVk (B : CurveBackend G1 G2 GT Fr) (vk : Groth16VKey G1 G2) :
    Except G16Error Unit :=
  if B.g1_on_curve vk.alpha_g1 = false then .error .InvalidVerificationKey
  else if B.g1_in_subgroup vk.alpha_g1 = false then
    .error .InvalidVerificationKey
  else if B.g2_on_curve vk.beta_g2 = false then .error .InvalidVerificationKey
  else if B.g2_in_subgroup vk.beta_g2 = false then
    .error .InvalidVerificationKey
  else if B.g2_on_curve vk.gamma_g2 = false then .error .InvalidVerificationKey
  else if B.g2_in_subgroup vk.gamma_g2 = false then
    .error .InvalidVerificationKey
  else if B.g2_on_curve vk.delta_g2 = false then .error .InvalidVerificationKey
  else if B.g2_in_subgroup vk.delta_g2 = false then
    .error .InvalidVerificationKey
  else if vk.gamma_abc_g1.all
      (fun p => B.g1_on_curve p && B.g1_in_subgroup p) = false then
    .error .InvalidVerificationKey
  else .ok ()

/-- validate_proof in groth16.rs: A, B, C on-curve and in-subgroup. -/
def validateProof (B : CurveBackend G1 G2 GT Fr)
    (proof : Groth16Proof G1 G2) : Except G16Error Unit :=
  if B.g1_on_curve proof.a = false then .error .MalformedProof
  else if B.g1_in_subgroup proof.a = false then .error .MalformedProof
  else if B.g2_on_curve proof.b = false then .error .MalformedProof
  else if B.g2_in_subgroup proof.b = false then .error .MalformedProof
  else if B.g1_on_curve proof.c = false then .error .MalformedProof
  else if B.g1_in_subgroup proof.c = false then .error .MalformedProof
  else .ok ()

/-- The 32-byte chunking of `bytes.chunks(32)`, fuel-driven. -/
def chunk32F : Nat → List Nat → List (List Nat)
  | 0, _ => []
  | f + 1, l => if l.isEmpty then [] else l.take 32 :: chunk32F f (l.drop 32)

/-- bytes.chunks(32) as a list of chunks. -/
def chunk32 (l : List Nat) : List (List Nat) := chunk32F l.length l

/-- The per-chunk deserialisation loop of deserialize_public_inputs. -/
def deserChunks (B : CurveBackend G1 G2 GT Fr) :
    List (List Nat) → Except G16Error (List Fr)
  | [] => .ok []
  | c :: rest =>
    match B.deser_fr c with
    | none => .error .InvalidPublicInputs
    | some x =>
      match deserChunks B rest with
      | .error e => .error e
      | .ok xs => .ok (x :: xs)

/-- deserialize_public_inputs in groth16.rs. -/
def deserializePublicInputs (B : CurveBackend G1 G2 GT Fr)
    (bytes : List Nat) : Except G16Error (List Fr) :=
  if bytes.length % 32 ≠ 0 then .error .InvalidPublicInputs
  else if bytes.length / 32 > 256 then .error .InvalidInputSize
  else deserChunks B (chunk32 bytes)

/-- The accumulator loop computing
`L = gamma_abc_g1[0] + Σ input[i]·gamma_abc_g1[i+1]`. -/
def computeL (B : CurveBackend G1 G2 GT Fr) (gamma_abc : List G1)
    (inputs : List Fr) : G1 :=
  inputs.enum.foldl
    (fun l p => B.g1_add l (B.g1_smul (gamma_abc.getD (p.1 + 1) B.g1_default)
      p.2))
    (gamma_abc.getD 0 B.g1_default)

/-- The four-factor pairing product of verify_proof_internal:
`e(A,B) · e(-alpha,beta) · e(-L,gamma) · e(-C,delta)`. -/
def pairingQuad (B : CurveBackend G1 G2 GT Fr) (vk : Groth16VKey G1 G2)
    (proof : Groth16Proof G1 G2) (inputs : List Fr) : GT :=
  B.multi_pairing
    [(proof.a, proof.b),
     (B.g1_neg vk.alpha_g1, vk.beta_g2),
     (B.g1_neg (computeL B vk.gamma_abc_g1 inputs), vk.gamma_g2),
     (B.g1_neg proof.c, vk.delta_g2)]

/-- verify_proof_internal in groth16.rs: Ok(product == 1). -/
def verifyProofInternal (B : CurveBackend G1 G2 GT Fr)
    (vk : Groth16VKey G1 G2) (proof : Groth16Proof G1 G2)
    (inputs : List Fr) : Except G16Error Bool :=
  .ok (decide (pairingQuad B vk proof inputs = B.gt_one))

/-- The three-factor product of verify_proof_with_precomputed:
`e(A,B) · e(-L,gamma) · e(-C,delta)`. -/
def pairingTriple (B : CurveBackend G1 G2 GT Fr) (vk : Groth16VKey G1 G2)
    (proof : Groth16Proof G1 G2) (inputs : List Fr) : GT :=
  B.multi_pairing
    [(proof.a, proof.b),
     (B.g1_neg (computeL B vk.gamma_abc_g1 inputs), vk.gamma_g2),
     (B.g1_neg proof.c, vk.delta_g2)]

/-- verify_proof_with_precomputed in groth16.rs. -/
def verifyProofWithPrecomputed (B : CurveBackend G1 G2 GT Fr)
    (vk : Groth16VKey G1 G2) (proof : Groth16Proof G1 G2)
    (inputs : List Fr) (precomputed : GT) : Except G16Error Bool :=
  .ok (decide (pairingTriple B vk proof inputs = precomputed))

/-- The usize value of `vk.gamma_abc_g1.len() - 1` in the count check of
verify: the contract is built in release mode for wasm32 (usize = u32),
where the subtraction wraps, so at length 0 the expected count is
2^32 - 1 and the check can never pass (a debug build would abort there;
either way an empty key is rejected, never accepted). -/
def usizeSub1 (n : Nat) : Nat := (n + (2 ^ 32 - 1)) % 2 ^ 32

theorem usizeSub1_zero : usizeSub1 0 = 2 ^ 32 - 1 := rfl

theorem usizeSub1_of_pos (n : Nat) (h1 : 0 < n) (h2 : n < 2 ^ 32) :
    usizeSub1 n = n - 1 := by
  unfold usizeSub1
  omega

/-- verify in groth16.rs: size ceilings, deserialisation, point validation,
input-count check (usize arithmetic, wrapping at an empty key), then the
pairing equation. -/
def g16Verify (B : CurveBackend G1 G2 GT Fr)
    (proof_bytes public_inputs_bytes vk_bytes : List Nat) :
    Except G16Error Bool :=
  if proof_bytes.length > 512 then .error .InvalidInputSize
  else if vk_bytes.length > 4096 then .error .InvalidInputSize
  else
    match B.deser_vk vk_bytes with
    | none => .error .InvalidVerificationKey
    | some vk =>
      match validateVk B vk with
      | .error e => .error e
      | .ok () =>
        match B.deser_proof proof_bytes with
        | none => .error .DeserializationError
        | some proof =>
          match validateProof B proof with
          | .error e => .error e
          | .ok () =>
            match deserializePublicInputs B public_inputs_bytes with
            | .error e => .error e
            | .ok public_inputs =>
              if public_inputs.length ≠ usizeSub1 vk.gamma_abc_g1.length then
                .error .InvalidPublicInputs
              else verifyProofInternal B vk proof public_inputs

/-- The per-proof body of the batch_verify loop: every failure is mapped to
`false`, and no input-count check is performed. -/
def batchItem (B : CurveBackend G1 G2 GT Fr) (vk : Groth16VKey G1 G2)
    (precomputed : Option GT) (pb ib : List Nat) : Bool :=
  match B.deser_proof pb with
  | none => false
  | some proof =>
    match validateProof B proof with
    | .error _ => false
    | .ok () =>
      match deserializePublicInputs B ib with
      | .error _ => false
      | .ok inputs =>
        match
          (match precomputed with
           | some alpha_beta =>
             verifyProofWithPrecomputed B vk proof inputs alpha_beta
           | none => verifyProofInternal B vk proof inputs) with
        | .ok v => v
        | .error _ => false

/-- batch_verify in groth16.rs. -/
def batchVerify (B : CurveBackend G1 G2 GT Fr)
    (proofs public_inputs : List (List Nat))
    (vk_bytes precomputed_pairing_bytes : List Nat) :
    Except G16Error (List Bool) :=
  if proofs.length ≠ public_inputs.length then .error .InvalidInputSize
  else if proofs.isEmpty then .ok []
  else
    match B.deser_vk vk_bytes with
    | none => .error .InvalidVerificationKey
    | some vk =>
      match validateVk B vk with
      | .error e => .error e
      | .ok () =>
        match (if precomputed_pairing_bytes.isEmpty then
            (.ok none : Except G16Error (Option GT))
          else
            match B.deser_gt precomputed_pairing_bytes with
            | some g => .ok (some g)
            | none => .error .InvalidVerificationKey) with
        | .error e => .error e
        | .ok pre =>
          .ok (List.zipWith (batchItem B vk pre) proofs public_inputs)

/-- Structural acceptance of verify: sizes within bounds, all
deserialisations succeed, all points valid, input count matches. -/
def g16StructOk (B : CurveBackend G1 G2 GT Fr)
    (pb ib vb : List Nat) : Prop :=
  pb.length ≤ 512 ∧ vb.length ≤ 4096 ∧
    ∃ vk, B.deser_vk vb = some vk ∧ validateVk B vk = .ok () ∧
      (∃ proof, B.deser_proof pb = some proof ∧
        validateProof B proof = .ok ()) ∧
      ∃ xs, deserializePublicInputs B ib = .ok xs ∧
        xs.length = usizeSub1 vk.gamma_abc_g1.length

theorem g16Verify_ok_of_structOk (B : CurveBackend G1 G2 GT Fr)
    (pb ib vb : List Nat) (vk : Groth16VKey G1 G2)
    (proof : Groth16Proof G1 G2) (xs : List Fr)
    (h1 : pb.length ≤ 512) (h2 : vb.length ≤ 4096)
    (hvk : B.deser_vk vb = some vk) (hvvk : validateVk B vk = .ok ())
    (hpf : B.deser_proof pb = some proof)
    (hvpf : validateProof B proof = .ok ())
    (hin : deserializePublicInputs B ib = .ok xs)
    (hcount : xs.length = usizeSub1 vk.gamma_abc_g1.length) :
    g16Verify B pb ib vb =
      .ok (decide (pairingQuad B vk proof xs = B.gt_one)) := by
  rw [g16Verify, if_neg (by omega), if_neg (by omega)]
  simp only [hvk, hvvk, hpf, hvpf, hin]
  rw [if_neg (by omega)]
  rfl

theorem structOk_of_g16Verify_ok (B : CurveBackend G1 G2 GT Fr)
    (pb ib vb : List Nat) (b : Bool)
    (h : g16Verify B pb ib vb = .ok b) : g16StructOk B pb ib vb := by
  rw [g16Verify] at h
  by_cases h1 : pb.length > 512
  · rw [if_pos h1] at h
    cases h
  rw [if_neg h1] at h
  by_cases h2 : vb.length > 4096
  · rw [if_pos h2] at h
    cases h
  rw [if_neg h2] at h
  cases hvk : B.deser_vk vb with
  | none => simp only [hvk] at h; cases h
  | some vk =>
  simp only [hvk] at h
  cases hvvk : validateVk B vk with
  | error e => simp only [hvvk] at h; cases h
  | ok u =>
  cases u
  simp only [hvvk] at h
  cases hpf : B.deser_proof pb with
  | none => simp only [hpf] at h; cases h
  | some proof =>
  simp only [hpf] at h
  cases hvpf : validateProof B proof with
  | error e => simp only [hvpf] at h; cases h
  | ok u =>
  cases u
  simp only [hvpf] at h
  cases hin : deserializePublicInputs B ib with
  | error e => simp only [hin] at h; cases h
  | ok xs =>
  simp only [hin] at h
  by_cases hcount : xs.length ≠ usizeSub1 vk.gamma_abc_g1.length
  · rw [if_pos hcount] at h
    cases h
  · push_neg at hcount
    exact ⟨by omega, by omega, vk, hvk, hvvk, ⟨proof, hpf, hvpf⟩,
      xs, hin, hcount⟩

/-- C2.  When the bytes pass structural validation (size ceilings,
deserialisation to on-curve in-subgroup points, input count equal to the
usize value of `|gamma_abc_g1| - 1`, which wraps at an empty key so that
corner always errors), verify accepts iff the four-factor pairing product
equals 1, and reports a mathematically false proof as Ok(false); any
structural violation yields a typed error instead. -/
theorem c2_groth16_verify {G1 G2 GT Fr : Type} [DecidableEq GT]
    (B : CurveBackend G1 G2 GT Fr) (pb ib vb : List Nat) :
    (∀ (vk : Groth16VKey G1 G2) (proof : Groth16Proof G1 G2) (xs : List Fr),
      pb.length ≤ 512 → vb.length ≤ 4096 →
      B.deser_vk vb = some vk → validateVk B vk = .ok () →
      B.deser_proof pb = some proof → validateProof B proof = .ok () →
      deserializePublicInputs B ib = .ok xs →
      xs.length = usizeSub1 vk.gamma_abc_g1.length →
      (g16Verify B pb ib vb = .ok true ↔
        pairingQuad B vk proof xs = B.gt_one) ∧
      (pairingQuad B vk proof xs ≠ B.gt_one →
        g16Verify B pb ib vb = .ok false)) ∧
    (¬ g16StructOk B pb ib vb → ∃ e, g16Verify B pb ib vb = .error e) := by
  constructor
  · intro vk proof xs h1 h2 hvk hvvk hpf hvpf hin hcount
    have hrun := g16Verify_ok_of_structOk B pb ib vb vk proof xs h1 h2 hvk
      hvvk hpf hvpf hin hcount
    constructor
    · rw [hrun]
      constructor
      · intro h
        have : decide (pairingQuad B vk proof xs = B.gt_one) = true := by
          injection h
        exact of_decide_eq_true this
      · intro h
        rw [decide_eq_true h]
    · intro h
      rw [hrun, decide_eq_false h]
  · intro hns
    cases hval : g16Verify B pb ib vb with
    | error e => exact ⟨e, rfl⟩
    | ok b => exact absurd (structOk_of_g16Verify_ok B pb ib vb b hval) hns

end Groth16

/-- A degenerate backend over `Unit` groups: every deserialisation succeeds
and the pairing product is always the identity.  The registered key expects
exactly one public input (`gamma_abc_g1` has two entries). -/
def unitBackend : CurveBackend Unit Unit Unit Unit where
  deser_vk := fun _ => some ⟨(), (), (), (), [(), ()]⟩
  deser_proof := fun _ => some ⟨(), (), ()⟩
  deser_fr := fun _ => some ()
  deser_gt := fun _ => some ()
  g1_on_curve := fun _ => true
  g1_in_subgroup := fun _ => true
  g2_on_curve := fun _ => true
  g2_in_subgroup := fun _ => true
  g1_neg := fun p => p
  g1_add := fun _ _ => ()
  g1_smul := fun p _ => p
  g1_default := ()
  multi_pairing := fun _ => ()
  gt_one := ()

/-- C4 (code bug).  batch_verify skips the input-count check that single
verify performs: with a key expecting one public input and an empty
public-input byte string, single verify errors with InvalidPublicInputs
while batch_verify happily verifies the truncated statement and can even
return true.  The outcomes diverge, refuting batch/single equivalence. -/
theorem c4_batch_skips_input_count_check :
    batchVerify unitBackend [[]] [[]] [] [] = .ok [true] ∧
      g16Verify unitBackend [] [] [] = .error .InvalidPublicInputs :=
  ⟨rfl, rfl⟩

/-- A backend whose registered key has an empty `gamma_abc_g1`: the usize
wrap makes the count check `0 = 2^32 - 1` unsatisfiable, so verify rejects
even an empty input list, exactly as a release build of the source does. -/
def emptyKeyBackend : CurveBackend Unit Unit Unit Unit where
  deser_vk := fun _ => some ⟨(), (), (), (), []⟩
  deser_proof := fun _ => some ⟨(), (), ()⟩
  deser_fr := fun _ => some ()
  deser_gt := fun _ => some ()
  g1_on_curve := fun _ => true
  g1_in_subgroup := fun _ => true
  g2_on_curve := fun _ => true
  g2_in_subgroup := fun _ => true
  g1_neg := fun p => p
  g1_add := fun _ _ => ()
  g1_smul := fun p _ => p
  g1_default := ()
  multi_pairing := fun _ => ()
  gt_one := ()

theorem g16Verify_rejects_empty_gamma_abc :
    g16Verify emptyKeyBackend [] [] [] = .error .InvalidPublicInputs := rfl

/-- Witness for C2 over the degenerate backend: one 32-byte public input
matches the key's expected count and the proof is accepted. -/
theorem c2_groth16_verify_witness :
    g16Verify unitBackend [] (List.replicate 32 0) [] = .ok true :=
  ((c2_groth16_verify unitBackend [] (List.replicate 32 0) []).1
    ⟨(), (), (), (), [(), ()]⟩ ⟨(), (), ()⟩ [()]
    (by decide) (by decide) rfl rfl rfl rfl rfl (by decide)).1.mpr rfl


end UZKV
